import Mathlib


/-!
Shallow embedding of the FVG trading bot core (`helper.py`) and proofs of the
specification claims.  Prices are modelled as rationals, timestamps as natural
numbers (string timestamps compare lexicographically, which for well-formed
ISO timestamps coincides with chronological order).  Python's `round(x, 2)`
is modelled as exact round-half-to-even at two decimals; on every concrete
input used below this agrees with CPython's float behaviour.
-/

namespace Bot

/-- Round-half-to-even to the nearest integer (Python's `round`). -/
def roundHalfEven (x : ℚ) : ℤ :=
  let f : ℤ := ⌊x⌋
  let r : ℚ := x - f
  if r < 1/2 then f
  else if r > 1/2 then f + 1
  else if Even f then f else f + 1

/-- Python's `round(x, 2)`: round to two decimal places, ties to even. -/
def round2 (x : ℚ) : ℚ := (roundHalfEven (x * 100) : ℚ) / 100

/-- Trade direction, stored as the text 'Bullish' / 'Bearish' in the tables. -/
inductive Direction where
  | Bullish
  | Bearish
deriving DecidableEq, Repr

/-- Position status values written into `TradeStatus.Status`. -/
inductive Status where
  | Running
  | SL
  | PartialBooked
  | CostToCost
  | FullBooked
deriving DecidableEq, Repr

/-- One OHLCV candle of the input dataframe (`df_1m` / `ohlc_df`). -/
structure Candle where
  openTime : ℕ
  openP : ℚ
  high : ℚ
  low : ℚ
  close : ℚ
  volume : ℚ
  vwap : ℚ
deriving DecidableEq, Repr

/-- A row of the `FairValueGaps` table. -/
structure Gap where
  id : ℕ
  symbol : String
  activeTime : ℕ
  fvgStart : ℚ
  fvgEnd : ℚ
  direction : Direction
  timeFrame : String
  duration : ℤ
  gapSize : ℚ
  distanceFromVWAP : ℚ
  isActive : Bool
  isRetested : Bool
deriving DecidableEq, Repr

/-- A row of the `RetestGap` table. -/
structure RetestRow where
  id : ℕ
  symbol : String
  openTime : ℕ
  fairValueGap : ℕ
  timeFrame : String
  direction : Direction
  openP : ℚ
  high : ℚ
  low : ℚ
  close : ℚ
  volume : ℚ
  isActive : Bool
  isTraded : Bool
deriving DecidableEq, Repr

/-- A row of the `Trades` table (field spellings follow the schema). -/
structure TradeRow where
  id : ℕ
  symbol : String
  retestGap : ℕ
  direction : Direction
  lot : ℚ
  remainingLot : ℚ
  intialStopLoss : ℚ
  intialTarget : ℚ
  modifiedStopLoss : ℚ
  modifiedTarget : ℚ
  isActive : Bool
deriving DecidableEq, Repr

/-- A row of the `TradeStatus` table. -/
structure TradeStatusRow where
  id : ℕ
  symbol : String
  trade : ℕ
  entryPrice : ℚ
  exitPrice : ℚ
  pnl : ℚ
  status : Status
  quantity : ℚ
  isOpen : Bool
deriving DecidableEq, Repr

/-- The persisted store: the four logical tables. -/
structure DB where
  gaps : List Gap
  retests : List RetestRow
  trades : List TradeRow
  tradeStatus : List TradeStatusRow
deriving DecidableEq, Repr

/-- The joined (`TradeStatus` ⋈ `Trades`) row that `update_trade_status`
iterates over. -/
structure Position where
  direction : Direction
  intialTarget : ℚ
  intialStopLoss : ℚ
  modifiedTarget : ℚ
  modifiedStopLoss : ℚ
  lot : ℚ
  remainingLot : ℚ
  entryPrice : ℚ
  exitPrice : ℚ
  pnl : ℚ
  status : Status
  isOpen : Bool
deriving DecidableEq, Repr

open Direction Status

/-- The `elif` chain of `update_trade_status` applied to one joined row with
the latest close; assignments are performed in source order.  The Bool is
the `updated` flag: `true` iff one of the eight guards fired. -/
def positionUpdate (recentClose : ℚ) (p : Position) : Position × Bool :=
  if p.status = Running ∧ p.direction = Bullish ∧ recentClose < p.intialStopLoss then
    let exitPrice := p.intialStopLoss
    ({ p with status := SL, exitPrice := exitPrice, remainingLot := 0,
              pnl := p.lot * (exitPrice - p.entryPrice), isOpen := false }, true)
  else if p.status = Running ∧ p.direction = Bearish ∧ recentClose > p.intialStopLoss then
    let exitPrice := p.intialStopLoss
    ({ p with status := SL, exitPrice := exitPrice, remainingLot := 0,
              pnl := p.lot * (p.entryPrice - exitPrice), isOpen := false }, true)
  else if p.status = Running ∧ p.direction = Bullish ∧ recentClose ≥ p.intialTarget then
    let remainingLot := p.lot / 2
    let exitPrice := p.intialTarget
    ({ p with status := PartialBooked, modifiedStopLoss := p.entryPrice,
              remainingLot := remainingLot, exitPrice := exitPrice,
              pnl := (p.lot - remainingLot) * (exitPrice - p.entryPrice)
                     + remainingLot * (recentClose - p.entryPrice) }, true)
  else if p.status = Running ∧ p.direction = Bearish ∧ recentClose ≤ p.intialTarget then
    let remainingLot := p.lot / 2
    let exitPrice := p.intialTarget
    ({ p with status := PartialBooked, modifiedStopLoss := p.entryPrice,
              remainingLot := remainingLot, exitPrice := exitPrice,
              pnl := (p.lot - remainingLot) * (p.entryPrice - exitPrice)
                     + remainingLot * (p.entryPrice - recentClose) }, true)
  else if p.status = PartialBooked ∧ p.direction = Bullish ∧ recentClose < p.modifiedStopLoss then
    let exitPrice := ((p.lot - p.remainingLot) * p.intialTarget
                      + p.remainingLot * p.modifiedStopLoss) / p.lot
    ({ p with status := CostToCost, exitPrice := exitPrice, remainingLot := 0,
              pnl := p.lot * (p.entryPrice - exitPrice), isOpen := false }, true)
  else if p.status = PartialBooked ∧ p.direction = Bearish ∧ recentClose > p.modifiedStopLoss then
    let exitPrice := ((p.lot - p.remainingLot) * p.intialTarget
                      + p.remainingLot * p.modifiedStopLoss) / p.lot
    ({ p with status := CostToCost, exitPrice := exitPrice, remainingLot := 0,
              pnl := p.lot * (exitPrice - p.entryPrice), isOpen := false }, true)
  else if p.status = PartialBooked ∧ p.direction = Bullish ∧ recentClose ≥ p.modifiedTarget then
    let exitPrice := ((p.lot - p.remainingLot) * p.intialTarget
                      + p.remainingLot * p.modifiedTarget) / p.lot
    ({ p with status := FullBooked, exitPrice := exitPrice, remainingLot := 0,
              pnl := p.lot * (p.entryPrice - exitPrice), isOpen := false }, true)
  else if p.status = PartialBooked ∧ p.direction = Bearish ∧ recentClose ≤ p.modifiedTarget then
    let exitPrice := ((p.lot - p.remainingLot) * p.intialTarget
                      + p.remainingLot * p.modifiedTarget) / p.lot
    ({ p with status := FullBooked, exitPrice := exitPrice, remainingLot := 0,
              pnl := p.lot * (exitPrice - p.entryPrice), isOpen := false }, true)
  else
    (p, false)

/-- One invocation of `update_trade_status` as seen by a single position:
the SQL only fetches rows with `IsOpen = 1`, so closed rows are untouched. -/
def positionStep (recentClose : ℚ) (p : Position) : Position :=
  if p.isOpen then (positionUpdate recentClose p).1 else p

/-- A gap record as built by the detection loop, before the database assigns
an `Id` (the dict appended to `new_fvgs`). -/
structure NewFvg where
  symbol : String
  activeTime : ℕ
  fvgStart : ℚ
  fvgEnd : ℚ
  direction : Direction
  timeFrame : String
  gapSize : ℚ
  distanceFromVWAP : ℚ
deriving DecidableEq, Repr

/-- The body of the detection loop for one `(prev2, prev1, curr)` triple.
`tfMin` is `int(timeframe.replace("m",""))`. -/
def detectTriple (symbol : String) (timeFrame : String) (tfMin : ℕ)
    (prev2 _prev1 curr : Candle) : List NewFvg :=
  if prev2.high < curr.low then
    let gapSize := round2 ((curr.low - prev2.high) / prev2.high * 100)
    if gapSize ≥ 2/100 then
      [{ symbol := symbol,
         activeTime := curr.openTime + tfMin,
         fvgStart := prev2.high, fvgEnd := curr.low,
         direction := Direction.Bullish, timeFrame := timeFrame,
         gapSize := gapSize,
         distanceFromVWAP := round2 ((curr.low - curr.vwap) / curr.vwap * 100) }]
    else []
  else if prev2.low > curr.high then
    let gapSize := round2 ((prev2.low - curr.high) / curr.high * 100)
    if gapSize ≥ 2/100 then
      [{ symbol := symbol,
         activeTime := curr.openTime + tfMin,
         fvgStart := curr.high, fvgEnd := prev2.low,
         direction := Direction.Bearish, timeFrame := timeFrame,
         gapSize := gapSize,
         distanceFromVWAP := round2 ((curr.high - curr.vwap) / curr.vwap * 100) }]
    else []
  else []

/-- `for i in range(2, len(ohlc_df))`: scan every consecutive candle triple. -/
def fvgScan (symbol : String) (timeFrame : String) (tfMin : ℕ) :
    List Candle → List NewFvg
  | p2 :: p1 :: c :: rest =>
      detectTriple symbol timeFrame tfMin p2 p1 c
        ++ fvgScan symbol timeFrame tfMin (p1 :: c :: rest)
  | _ => []

/-- Largest `Id` present in the gaps table (0 when empty). -/
def maxGapId (gaps : List Gap) : ℕ :=
  gaps.foldr (fun g m => max g.id m) 0

/-- `AUTOINCREMENT` for the gaps table. -/
def nextGapId (gaps : List Gap) : ℕ := maxGapId gaps + 1

/-- The pre-insert duplicate check of `update_fvg_table`. -/
def fvgExists (gaps : List Gap) (f : NewFvg) : Bool :=
  gaps.any fun g =>
    decide (g.symbol = f.symbol ∧ g.timeFrame = f.timeFrame ∧
      g.fvgStart = f.fvgStart ∧ g.fvgEnd = f.fvgEnd ∧ g.direction = f.direction)

/-- Materialise a detected gap as an inserted row (`IsActive=1`,
`IsRetested` defaults to 0, `Duration=0`). -/
def newFvgRow (id : ℕ) (f : NewFvg) : Gap :=
  { id := id, symbol := f.symbol, activeTime := f.activeTime,
    fvgStart := f.fvgStart, fvgEnd := f.fvgEnd, direction := f.direction,
    timeFrame := f.timeFrame, duration := 0, gapSize := f.gapSize,
    distanceFromVWAP := f.distanceFromVWAP, isActive := true, isRetested := false }

/-- The insert loop: each new gap is inserted unless the duplicate check
finds an identical key in the (live) table. -/
def insertNewFvgs (gaps : List Gap) : List NewFvg → List Gap
  | [] => gaps
  | f :: fs =>
      insertNewFvgs
        (if fvgExists gaps f then gaps else gaps ++ [newFvgRow (nextGapId gaps) f]) fs

/-- `UPDATE FairValueGaps SET ... WHERE Id=?`. -/
def updateGapRow (gaps : List Gap) (id : ℕ) (f : Gap → Gap) : List Gap :=
  gaps.map fun g => if g.id = id then f g else g

/-- `UPDATE RetestGap SET IsActive=0 WHERE FairValueGap=?`. -/
def deactivateRetestsOf (retests : List RetestRow) (gapId : ℕ) : List RetestRow :=
  retests.map fun r => if r.fairValueGap = gapId then { r with isActive := false } else r

/-- The far-boundary fill test of the deactivation pass (uses the snapshot
row's direction and boundaries and the latest close). -/
def gapFilled (fvg : Gap) (recentClose : ℚ) : Prop :=
  (fvg.direction = Direction.Bearish ∧ recentClose > fvg.fvgEnd) ∨
  (fvg.direction = Direction.Bullish ∧ recentClose < fvg.fvgStart)

instance (fvg : Gap) (recentClose : ℚ) : Decidable (gapFilled fvg recentClose) := by
  unfold gapFilled; infer_instance

/-- One iteration of the aging/deactivation loop, for one row `fvg` of the
pre-read snapshot.  `now` is the wall-clock time in minutes. -/
def agingOne (tfMin : ℕ) (now : ℤ) (recentClose : ℚ) (db : DB) (fvg : Gap) : DB :=
  if fvg.isActive then
    let durationMin : ℤ := now - (fvg.activeTime : ℤ)
    let rounded : ℤ := (Int.fdiv durationMin tfMin) * tfMin
    let db₁ : DB :=
      { db with gaps := updateGapRow db.gaps fvg.id (fun g => { g with duration := rounded }) }
    if gapFilled fvg recentClose then
      { db₁ with
        gaps := updateGapRow db₁.gaps fvg.id (fun g => { g with isActive := false }),
        retests := deactivateRetestsOf db₁.retests fvg.id }
    else db₁
  else db

/-- The aging/deactivation loop over the snapshot of pre-existing gaps. -/
def agingPass (tfMin : ℕ) (now : ℤ) (recentClose : ℚ) (db : DB) :
    List Gap → DB
  | [] => db
  | fvg :: rest => agingPass tfMin now recentClose (agingOne tfMin now recentClose db fvg) rest

/-- `update_fvg_table(db_path, symbol, timeframe, ohlc_df)`.  The snapshot of
existing gaps is read before any insert; the aging pass then runs against the
last candle's close.  On an empty dataframe the function raises before
committing, leaving the store unchanged. -/
def update_fvg_table (symbol : String) (timeFrame : String) (tfMin : ℕ)
    (now : ℤ) (ohlc : List Candle) (db : DB) : DB :=
  match ohlc.getLast? with
  | none => db
  | some lastCandle =>
      let existing := db.gaps.filter fun g =>
        decide (g.symbol = symbol ∧ g.timeFrame = timeFrame)
      let newFvgs := fvgScan symbol timeFrame tfMin ohlc
      let db₁ : DB := { db with gaps := insertNewFvgs db.gaps newFvgs }
      agingPass tfMin now lastCandle.close db₁ existing

/-- `SELECT MAX(ActiveTime) FROM FairValueGaps WHERE TimeFrame='5m' AND IsActive=1`. -/
def maxActiveTime5m (gaps : List Gap) : Option ℕ :=
  match (gaps.filter fun g => decide (g.timeFrame = "5m" ∧ g.isActive = true)).map
      Gap.activeTime with
  | [] => none
  | t :: ts => some (ts.foldl max t)

/-- Step 1 of `check_and_insert_retest_gaps`: the candidate gap is the first
row that is 5m, active, not yet retested and whose `ActiveTime` equals the
maximum `ActiveTime` over all *active* 5m gaps (the subquery does not filter
on `IsRetested`). -/
def selectCandidateGap (gaps : List Gap) : Option Gap :=
  match maxActiveTime5m gaps with
  | none => none
  | some m =>
      gaps.find? fun g =>
        decide (g.timeFrame = "5m" ∧ g.isActive = true ∧ g.isRetested = false ∧
          g.activeTime = m)

/-- `df.sort_values("OpenTime").iloc[-1]`: the last occurrence of the maximal
open time (pandas' sort is stable). -/
def latestCandle (df : List Candle) : Option Candle :=
  df.foldl
    (fun acc c =>
      match acc with
      | none => some c
      | some b => if b.openTime ≤ c.openTime then some c else acc)
    none

/-- `AUTOINCREMENT` for the RetestGap table. -/
def nextRetestId (retests : List RetestRow) : ℕ :=
  retests.foldr (fun r m => max r.id m) 0 + 1

/-- The RetestGap row inserted on a detected retest.  Note that the Python
variable `symbol` is rebound when the candidate row is unpacked, so the
inserted symbol, direction and timeframe all come from the gap. -/
def newRetestRow (id : ℕ) (fvg : Gap) (latest : Candle) : RetestRow :=
  { id := id, symbol := fvg.symbol, openTime := latest.openTime,
    fairValueGap := fvg.id, timeFrame := fvg.timeFrame,
    direction := fvg.direction, openP := latest.openP, high := latest.high,
    low := latest.low, close := latest.close, volume := latest.volume,
    isActive := true, isTraded := false }

/-- Step 4 of `check_and_insert_retest_gaps`: the retest condition on the
latest 1-minute candle. `new_fvg_end = fvg_end + fvg_end*0.00003` and
`new_fvg_start = fvg_start - fvg_start*0.00005`. -/
def retestCond (fvg : Gap) (latest : Candle) : Bool :=
  if fvg.direction = Direction.Bullish then
    decide (latest.low ≤ fvg.fvgEnd + fvg.fvgEnd * (3/100000) ∧
      latest.openTime > fvg.activeTime)
  else
    decide (latest.high ≥ fvg.fvgStart - fvg.fvgStart * (5/100000) ∧
      latest.openTime > fvg.activeTime)

/-- `check_and_insert_retest_gaps(symbol, db_path, df_1m)`. -/
def check_and_insert_retest_gaps (df1m : List Candle) (db : DB) : DB :=
  match selectCandidateGap db.gaps with
  | none => db
  | some fvg =>
      match latestCandle df1m with
      | none => db
      | some latest =>
          let db₁ : DB :=
            if retestCond fvg latest then
              { db with
                gaps := db.gaps.map fun g =>
                  if g.id = fvg.id then { g with isRetested := true } else g,
                retests := db.retests ++ [newRetestRow (nextRetestId db.retests) fvg latest] }
            else db
          match db₁.gaps.find? fun g => decide (g.id = fvg.id) with
          | none => db₁
          | some g =>
              if g.isActive = false then
                { db₁ with retests := deactivateRetestsOf db₁.retests fvg.id }
              else db₁

/-- Step 1 of `trigger_trade`: the active, untraded RetestGap with the
greatest `OpenTime` (`ORDER BY OpenTime DESC LIMIT 1`). -/
def selectRetest (retests : List RetestRow) : Option RetestRow :=
  retests.foldl
    (fun acc r =>
      if r.isActive = true ∧ r.isTraded = false then
        match acc with
        | none => some r
        | some b => if r.openTime > b.openTime then some r else acc
      else acc)
    none

/-- `AUTOINCREMENT` for the Trades table (`cur.lastrowid`). -/
def nextTradeId (trades : List TradeRow) : ℕ :=
  trades.foldr (fun t m => max t.id m) 0 + 1

/-- `AUTOINCREMENT` for the TradeStatus table. -/
def nextStatusId (rows : List TradeStatusRow) : ℕ :=
  rows.foldr (fun t m => max t.id m) 0 + 1

/-- `trigger_trade(symbol, db_path, df_1m)`. -/
def trigger_trade (symbol : String) (df1m : List Candle) (db : DB) : DB :=
  match df1m.getLast? with
  | none => db
  | some latest =>
      let latestClose := latest.close
      match selectRetest db.retests with
      | none => db
      | some rg =>
          let trigger : Bool :=
            if rg.direction = Direction.Bullish then decide (latestClose > rg.high)
            else decide (latestClose < rg.low)
          if trigger = false then db
          else
            match db.gaps.find? fun g => decide (g.id = rg.fairValueGap) with
            | none => db
            | some fvgRow =>
                let isl :=
                  if rg.direction = Direction.Bullish then
                    round2 (fvgRow.fvgStart - fvgRow.fvgStart * (5/100000))
                  else
                    round2 (fvgRow.fvgEnd + fvgRow.fvgEnd * (5/100000))
                let pts :=
                  if rg.direction = Direction.Bullish then round2 (latestClose - isl)
                  else round2 (isl - latestClose)
                let initialTarget :=
                  if rg.direction = Direction.Bullish then round2 (latestClose + 2 * pts)
                  else round2 (latestClose - 2 * pts)
                let modifiedTarget :=
                  if rg.direction = Direction.Bullish then round2 (latestClose + 3 * pts)
                  else round2 (latestClose - 3 * pts)
                let tradeId := nextTradeId db.trades
                { db with
                  trades := db.trades ++ [{
                    id := tradeId, symbol := symbol, retestGap := rg.id,
                    direction := rg.direction, lot := 200, remainingLot := 200,
                    intialStopLoss := isl, intialTarget := initialTarget,
                    modifiedStopLoss := isl, modifiedTarget := modifiedTarget,
                    isActive := true }],
                  tradeStatus := db.tradeStatus ++ [{
                    id := nextStatusId db.tradeStatus, symbol := symbol,
                    trade := tradeId, entryPrice := latestClose, exitPrice := 0,
                    pnl := 0, status := Status.Running, quantity := 200,
                    isOpen := true }],
                  retests := db.retests.map fun r =>
                    if r.id = rg.id then { r with isTraded := true } else r }

/-- The joined row `TradeStatus TS INNER JOIN Trades T ON TS.Trade = T.Id`. -/
def positionOfJoin (t : TradeRow) (ts : TradeStatusRow) : Position :=
  { direction := t.direction, intialTarget := t.intialTarget,
    intialStopLoss := t.intialStopLoss, modifiedTarget := t.modifiedTarget,
    modifiedStopLoss := t.modifiedStopLoss, lot := t.lot,
    remainingLot := t.remainingLot, entryPrice := ts.entryPrice,
    exitPrice := ts.exitPrice, pnl := ts.pnl, status := ts.status,
    isOpen := ts.isOpen }

/-- The two UPDATE statements run when a guard fired. -/
def writeBack (db : DB) (tsId tId : ℕ) (q : Position) : DB :=
  { db with
    tradeStatus := db.tradeStatus.map fun s =>
      if s.id = tsId then
        { s with status := q.status, exitPrice := q.exitPrice, pnl := q.pnl,
                 isOpen := q.isOpen }
      else s,
    trades := db.trades.map fun t =>
      if t.id = tId then
        { t with remainingLot := q.remainingLot,
                 modifiedStopLoss := q.modifiedStopLoss,
                 modifiedTarget := q.modifiedTarget, isActive := q.isOpen }
      else t }

/-- `update_trade_status(df_1m, symbol, db_path)`. -/
def update_trade_status (symbol : String) (df1m : List Candle) (db : DB) : DB :=
  match df1m.getLast? with
  | none => db
  | some latest =>
      let recentClose := latest.close
      let activeTrades : List (TradeStatusRow × TradeRow) :=
        db.tradeStatus.filterMap fun ts =>
          if ts.isOpen = true then
            (db.trades.find? fun t => decide (t.id = ts.trade)).bind fun t =>
              if t.symbol = symbol then some (ts, t) else none
          else none
      activeTrades.foldl
        (fun acc row =>
          let q := positionUpdate recentClose (positionOfJoin row.2 row.1)
          if q.2 then writeBack acc row.1.id row.2.id q.1 else acc)
        db

/-- A freshly opened Bullish position (`Running`, full lot). -/
def runPos : Position :=
  { direction := Direction.Bullish, intialTarget := 120, intialStopLoss := 95,
    modifiedTarget := 130, modifiedStopLoss := 95, lot := 200,
    remainingLot := 200, entryPrice := 100, exitPrice := 0, pnl := 0,
    status := Status.Running, isOpen := true }

/-- An older active, unretested 5m gap. -/
def gapA : Gap :=
  { id := 1, symbol := "BTCUSD", activeTime := 1, fvgStart := 100, fvgEnd := 106,
    direction := Direction.Bullish, timeFrame := "5m", duration := 0, gapSize := 6,
    distanceFromVWAP := 0, isActive := true, isRetested := false }

/-- A newer active 5m gap that is already retested. -/
def gapB : Gap :=
  { id := 2, symbol := "BTCUSD", activeTime := 2, fvgStart := 100, fvgEnd := 106,
    direction := Direction.Bullish, timeFrame := "5m", duration := 0, gapSize := 6,
    distanceFromVWAP := 0, isActive := true, isRetested := true }

/-- A store holding both gaps and nothing else. -/
def dbAB : DB := { gaps := [gapA, gapB], retests := [], trades := [], tradeStatus := [] }

/-- A store holding only the active, unretested `gapA`. -/
def dbA : DB := { gaps := [gapA], retests := [], trades := [], tradeStatus := [] }

/-- A 1-minute candle dipping into `gapA` strictly after its activation. -/
def dipCandle : Candle :=
  { openTime := 3, openP := 105, high := 106, low := 104, close := 105,
    volume := 1, vwap := 100 }

/-- An active, unretested Bearish 5m gap from 100000 to 100100. -/
def gapBear : Gap :=
  { id := 7, symbol := "BTCUSD", activeTime := 1, fvgStart := 100000, fvgEnd := 100100,
    direction := Direction.Bearish, timeFrame := "5m", duration := 0, gapSize := 1/10,
    distanceFromVWAP := 0, isActive := true, isRetested := false }

/-- A store holding only `gapBear`. -/
def dbBear : DB := { gaps := [gapBear], retests := [], trades := [], tradeStatus := [] }

/-- A candle whose high 99996 reaches `gapStart·(1 − 0.00005) = 99995` but not
`gapStart·(1 − 0.00003) = 99997`. -/
def touchCandle : Candle :=
  { openTime := 2, openP := 99500, high := 99996, low := 99000, close := 99500,
    volume := 1, vwap := 99500 }

/-- A candle at `openTime = 0`, not strictly after `gapA.activeTime = 1`. -/
def earlyCandle : Candle :=
  { openTime := 0, openP := 105, high := 106, low := 104, close := 105,
    volume := 1, vwap := 100 }

/-- Spec scenario candle 0: H=100, L=95. -/
def s0 : Candle :=
  { openTime := 0, openP := 97, high := 100, low := 95, close := 96, volume := 1, vwap := 97 }

/-- Spec scenario candle 1: H=102, L=98. -/
def s1 : Candle :=
  { openTime := 5, openP := 99, high := 102, low := 98, close := 99, volume := 1, vwap := 99 }

/-- Spec scenario candle 2: H=110, L=106. -/
def s2 : Candle :=
  { openTime := 10, openP := 107, high := 110, low := 106, close := 108, volume := 1, vwap := 107 }

/-- The gap record the detector emits on the spec scenario triple. -/
def scanGapRec : NewFvg :=
  { symbol := "BTCUSD", activeTime := 15, fvgStart := 100, fvgEnd := 106,
    direction := Direction.Bullish, timeFrame := "5m", gapSize := 6,
    distanceFromVWAP := -93/100 }

/-- A candle opening 0.016% above the previous high 100. -/
def tinyGapCandle : Candle :=
  { openTime := 10, openP := 100016/1000, high := 1001/10, low := 100016/1000,
    close := 10005/100, volume := 1, vwap := 100 }

/-- An active, untraded retest of `gapA` with High = 108. -/
def rg1 : RetestRow :=
  { id := 1, symbol := "BTCUSD", openTime := 3, fairValueGap := 1, timeFrame := "5m",
    direction := Direction.Bullish, openP := 105, high := 108, low := 104, close := 105,
    volume := 1, isActive := true, isTraded := false }

/-- Store with `gapA` and its untraded retest. -/
def dbRT : DB := { gaps := [gapA], retests := [rg1], trades := [], tradeStatus := [] }

/-- Store with the retest but a missing owning gap row. -/
def dbNoGap : DB := { gaps := [], retests := [rg1], trades := [], tradeStatus := [] }

/-- The breakout candle of the spec scenario: close 110 > retest high 108. -/
def entryCandle : Candle :=
  { openTime := 4, openP := 109, high := 111, low := 108, close := 110, volume := 1,
    vwap := 100 }

/-- The trade row actually inserted for `entryCandle` on `dbRT`: every level
is rounded to 2 decimals at each step, so `initialStopLoss = round(99.995, 2)
= 100.0`, `stopDistance = 10.0`, targets 130.0 and 140.0. -/
def insertedTrade : TradeRow :=
  { id := 1, symbol := "BTCUSD", retestGap := 1, direction := Direction.Bullish,
    lot := 200, remainingLot := 200, intialStopLoss := 100, intialTarget := 130,
    modifiedStopLoss := 100, modifiedTarget := 140, isActive := true }

/-- The rows of the gaps table carrying a given id. -/
def rowsWithId (gaps : List Gap) (i : ℕ) : List Gap :=
  gaps.filter fun g => decide (g.id = i)

/-- The duration written by one aging iteration. -/
def roundedDuration (tfMin : ℕ) (now : ℤ) (fvg : Gap) : ℤ :=
  (Int.fdiv (now - (fvg.activeTime : ℤ)) tfMin) * tfMin

/-- "Every RetestGap row referencing gap `i` is inactive." -/
def retestsAllDeact (retests : List RetestRow) (i : ℕ) : Prop :=
  ∀ r ∈ retests, r.fairValueGap = i → r.isActive = false

/-- Every active gap row after a call was already active before it (tracked
by id), or is a freshly inserted row whose id did not exist before: no
operation turns a gap's `IsActive` from 0 back to 1. -/
def gapActivityDerived (db db' : DB) : Prop :=
  ∀ g' ∈ db'.gaps, g'.isActive = true →
    (∃ g₀ ∈ db.gaps, g₀.id = g'.id ∧ g₀.isActive = true) ∨
    ∀ g₀ ∈ db.gaps, g₀.id ≠ g'.id

/-- A candle whose close 99 is below `gapA`'s gapStart 100. -/
def fillCandle : Candle :=
  { openTime := 20, openP := 100, high := 100, low := 98, close := 99, volume := 1,
    vwap := 100 }

/-- A freshly opened Bullish trade row (`Running`, full lot 200). -/
def tr0 : TradeRow :=
  { id := 1, symbol := "BTCUSD", retestGap := 1, direction := Direction.Bullish,
    lot := 200, remainingLot := 200, intialStopLoss := 95, intialTarget := 120,
    modifiedStopLoss := 95, modifiedTarget := 130, isActive := true }

/-- The companion TradeStatus row of `tr0`. -/
def ts0 : TradeStatusRow :=
  { id := 1, symbol := "BTCUSD", trade := 1, entryPrice := 100, exitPrice := 0,
    pnl := 0, status := Status.Running, quantity := 200, isOpen := true }

/-- A store holding the single open position `tr0`/`ts0`. -/
def dbTS : DB := { gaps := [], retests := [], trades := [tr0], tradeStatus := [ts0] }

/-- A candle whose close 130 already satisfies both the initial target 120
and the modified target 130. -/
def tgtCandle : Candle :=
  { openTime := 9, openP := 128, high := 131, low := 127, close := 130,
    volume := 1, vwap := 120 }

/-- The store after one `update_trade_status` call on `dbTS` with close 130:
the position is `PartialBooked`, half the lot remains, breakeven stop. -/
def tr1 : TradeRow :=
  { id := 1, symbol := "BTCUSD", retestGap := 1, direction := Direction.Bullish,
    lot := 200, remainingLot := 100, intialStopLoss := 95, intialTarget := 120,
    modifiedStopLoss := 100, modifiedTarget := 130, isActive := true }

/-- TradeStatus row after the first call on `dbTS`. -/
def ts1 : TradeStatusRow :=
  { id := 1, symbol := "BTCUSD", trade := 1, entryPrice := 100, exitPrice := 120,
    pnl := 5000, status := Status.PartialBooked, quantity := 200, isOpen := true }

/-- Store after the first call. -/
def dbTS1 : DB := { gaps := [], retests := [], trades := [tr1], tradeStatus := [ts1] }

/-- Trade row after the second call on the same candle: closed at
`FullBooked`. -/
def tr2 : TradeRow :=
  { id := 1, symbol := "BTCUSD", retestGap := 1, direction := Direction.Bullish,
    lot := 200, remainingLot := 0, intialStopLoss := 95, intialTarget := 120,
    modifiedStopLoss := 100, modifiedTarget := 130, isActive := false }

/-- TradeStatus row after the second call. -/
def ts2 : TradeStatusRow :=
  { id := 1, symbol := "BTCUSD", trade := 1, entryPrice := 100, exitPrice := 125,
    pnl := -5000, status := Status.FullBooked, quantity := 200, isOpen := false }

/-- Store after the second call. -/
def dbTS2 : DB := { gaps := [], retests := [], trades := [tr2], tradeStatus := [ts2] }

/-! ## Theorems -/

/-- One `update_trade_status` call on the fresh position with close 130:
`Running` → `PartialBooked`. -/
theorem update_trade_status_dbTS_eval :
    update_trade_status "BTCUSD" [tgtCandle] dbTS = dbTS1 := by
  simp +decide [update_trade_status, dbTS, tgtCandle, positionOfJoin, positionUpdate,
    writeBack, tr0, ts0, List.filterMap_cons, List.filterMap_nil,
    List.foldl_cons, List.foldl_nil, List.find?_cons, List.find?_nil]
  norm_num [dbTS1, tr1, ts1]

/-- A further `update_trade_status` call on the partially booked position
with the same close 130: `PartialBooked` → `FullBooked`. -/
theorem update_trade_status_dbTS1_eval :
    update_trade_status "BTCUSD" [tgtCandle] dbTS1 = dbTS2 := by
  simp +decide [update_trade_status, dbTS1, tgtCandle, positionOfJoin, positionUpdate,
    writeBack, tr1, ts1, List.filterMap_cons, List.filterMap_nil,
    List.foldl_cons, List.foldl_nil, List.find?_cons, List.find?_nil]
  norm_num [dbTS2, tr2, ts2]

theorem positionUpdate_cases (c : ℚ) (p : Position) :
    (positionUpdate c p).1 = p ∨ (positionUpdate c p).1.isOpen = false ∨
      (p.status = Status.Running ∧ (positionUpdate c p).1.status = Status.PartialBooked) := by
  unfold positionUpdate
  split_ifs <;> simp_all

theorem positionStep_of_isOpen (c : ℚ) (p : Position) (h : p.isOpen = true) :
    positionStep c p = (positionUpdate c p).1 := by
  simp [positionStep, h]

theorem positionStep_of_closed (c : ℚ) (p : Position) (h : p.isOpen = false) :
    positionStep c p = p := by
  simp [positionStep, h]

/-- C1: `update_trade_status` is claimed to write, on the blended terminal
transitions out of `PartialBooked`, a PnL of lot × (exitPrice − entryPrice)
for a Bullish trade.  The code writes the opposite sign: at the Bullish
`PartialBooked → FullBooked` transition with entry 100, lot 200 and blended
exit 125, it records PnL −5000 where the claimed formula (and the sign
convention used by the code's own SL and PartialBooked branches) gives
+5000. -/
theorem blended_pnl_sign_flipped :
    (update_trade_status "BTCUSD" [tgtCandle] dbTS1).tradeStatus = [ts2] ∧
    ts2.status = Status.FullBooked ∧ ts2.exitPrice = 125 ∧ ts2.pnl = -5000 ∧
    ts2.pnl ≠ tr1.lot * (ts2.exitPrice - ts1.entryPrice) := by
  refine ⟨by rw [update_trade_status_dbTS1_eval]; rfl, rfl, rfl, rfl, ?_⟩

  norm_num [ts2, tr1, ts1]

/-- C2 counterexample: running `update_trade_status` a second time on the
same input data is not a no-op.  With the close 130 already at the modified
target, the first invocation moves the open position from `Running` to
`PartialBooked` and the second invocation moves it on to `FullBooked`, so the
persisted state differs. -/
theorem rerun_changes_state :
    update_trade_status "BTCUSD" [tgtCandle]
        (update_trade_status "BTCUSD" [tgtCandle] dbTS) ≠
      update_trade_status "BTCUSD" [tgtCandle] dbTS := by
  rw [update_trade_status_dbTS_eval, update_trade_status_dbTS1_eval]
  intro h
  have := congrArg (fun d : DB => d.tradeStatus) h
  simp [dbTS1, dbTS2, ts1, ts2] at this

theorem le_foldl_max (a : ℕ) (l : List ℕ) : a ≤ l.foldl max a := by
  induction l generalizing a with
  | nil => simp
  | cons x xs ih => exact le_trans (le_max_left a x) (ih (max a x))

theorem mem_le_foldl_max (l : List ℕ) (a : ℕ) : ∀ x ∈ l, x ≤ l.foldl max a := by
  induction l generalizing a with
  | nil => simp
  | cons y ys ih =>
      intro x hx
      rcases List.mem_cons.mp hx with h | h
      · subst h
        exact le_trans (le_max_right a x) (le_foldl_max (max a x) ys)
      · exact ih (max a y) x h

theorem foldl_max_mem (l : List ℕ) (a : ℕ) : l.foldl max a = a ∨ l.foldl max a ∈ l := by
  induction l generalizing a with
  | nil => left; rfl
  | cons y ys ih =>
      rcases ih (max a y) with h | h
      · rw [List.foldl_cons, h]
        rcases max_choice a y with h' | h'
        · left; exact h'
        · right; rw [h']; exact List.mem_cons_self y ys
      · right; exact List.mem_cons_of_mem y h

/-- When the `MAX(ActiveTime)` subquery returns a value, it is attained by an
active 5m gap and bounds every active 5m gap's `ActiveTime`. -/
theorem maxActiveTime5m_spec (gaps : List Gap) (m : ℕ)
    (h : maxActiveTime5m gaps = some m) :
    (∃ g ∈ gaps, g.timeFrame = "5m" ∧ g.isActive = true ∧ g.activeTime = m) ∧
    ∀ g ∈ gaps, g.timeFrame = "5m" → g.isActive = true → g.activeTime ≤ m := by
  unfold maxActiveTime5m at h
  set l := gaps.filter fun g => decide (g.timeFrame = "5m" ∧ g.isActive = true) with hl
  have hmem : ∀ g ∈ l, g ∈ gaps ∧ g.timeFrame = "5m" ∧ g.isActive = true := by
    intro g hg
    have := List.mem_filter.mp (hl ▸ hg)
    exact ⟨this.1, by simpa using this.2⟩
  have hmem' : ∀ g ∈ gaps, g.timeFrame = "5m" → g.isActive = true → g ∈ l := by
    intro g hg h5 ha
    exact hl ▸ List.mem_filter.mpr ⟨hg, by simp [h5, ha]⟩
  rcases he : l.map Gap.activeTime with _ | ⟨t, ts⟩
  · rw [he] at h; exact absurd h (by simp)
  · rw [he] at h
    have hm : m = ts.foldl max t := by simpa using h.symm
    constructor
    · have : m ∈ l.map Gap.activeTime := by
        rw [he]
        rcases foldl_max_mem ts t with h' | h'
        · rw [hm, h']; exact List.mem_cons_self t ts
        · rw [hm]; exact List.mem_cons_of_mem t h'
      rcases List.mem_map.mp this with ⟨g, hg, hgt⟩
      exact ⟨g, (hmem g hg).1, (hmem g hg).2.1, (hmem g hg).2.2, hgt⟩
    · intro g hg h5 ha
      have : g.activeTime ∈ l.map Gap.activeTime := List.mem_map_of_mem _ (hmem' g hg h5 ha)
      rw [he] at this
      rcases List.mem_cons.mp this with h' | h'
      · rw [hm, h']; exact le_foldl_max t ts
      · rw [hm]; exact mem_le_foldl_max ts t _ h'

/-- When the subquery returns NULL there is no active 5m gap at all. -/
theorem maxActiveTime5m_none (gaps : List Gap)
    (h : maxActiveTime5m gaps = none) :
    ∀ g ∈ gaps, g.timeFrame = "5m" → g.isActive = true → False := by
  intro g hg h5 ha
  unfold maxActiveTime5m at h
  rcases he : (gaps.filter fun g => decide (g.timeFrame = "5m" ∧ g.isActive = true)).map
      Gap.activeTime with _ | ⟨t, ts⟩
  · have : g ∈ gaps.filter fun g => decide (g.timeFrame = "5m" ∧ g.isActive = true) :=
      List.mem_filter.mpr ⟨hg, by simp [h5, ha]⟩
    have := List.mem_map_of_mem Gap.activeTime this
    rw [he] at this
    exact absurd this (List.not_mem_nil _)
  · rw [he] at h; exact absurd h (by simp)

/-- C3 counterexample: `gapA` is an active, not-yet-retested 5m gap (and
`dipCandle` even satisfies its retest condition), yet
`check_and_insert_retest_gaps` is a no-op, because the `MAX(ActiveTime)`
subquery ranges over all active 5m gaps — including the already-retested,
newer `gapB` — so the outer query matches no row. -/
theorem retested_newer_gap_blocks_candidate :
    check_and_insert_retest_gaps [dipCandle] dbAB = dbAB ∧
    ∃ g ∈ dbAB.gaps, g.timeFrame = "5m" ∧ g.isActive = true ∧ g.isRetested = false ∧
      dipCandle.low ≤ g.fvgEnd ∧ dipCandle.openTime > g.activeTime := by
  constructor
  · simp +decide [check_and_insert_retest_gaps, selectCandidateGap, maxActiveTime5m,
      dbAB, gapA, gapB]
  · exact ⟨gapA, by simp [dbAB], rfl, rfl, rfl, by norm_num [gapA, dipCandle],
      by norm_num [gapA, dipCandle]⟩

/-- C3 amended: the candidate is an active, not-yet-retested 5m gap whose
`ActiveTime` equals the maximum `ActiveTime` over *all* active 5m gaps
(retested or not); the query matches no row iff every active, not-yet-retested
5m gap is strictly older than some active 5m gap — in particular the stage is
a no-op whenever the most recently activated active gap is already retested,
even though active, not-yet-retested gaps exist. -/
theorem selectCandidateGap_characterisation (gaps : List Gap) :
    (∀ g, selectCandidateGap gaps = some g →
      g ∈ gaps ∧ g.timeFrame = "5m" ∧ g.isActive = true ∧ g.isRetested = false ∧
        ∀ g' ∈ gaps, g'.timeFrame = "5m" → g'.isActive = true →
          g'.activeTime ≤ g.activeTime) ∧
    (selectCandidateGap gaps = none ↔
      ∀ g ∈ gaps, g.timeFrame = "5m" → g.isActive = true → g.isRetested = false →
        ∃ g' ∈ gaps, g'.timeFrame = "5m" ∧ g'.isActive = true ∧
          g.activeTime < g'.activeTime) := by
  constructor
  · intro g hg
    unfold selectCandidateGap at hg
    rcases hm : maxActiveTime5m gaps with _ | m
    · rw [hm] at hg; exact absurd hg (by simp)
    · rw [hm] at hg
      have hprop := List.find?_some hg
      have hmem := List.mem_of_find?_eq_some hg
      have hp : g.timeFrame = "5m" ∧ g.isActive = true ∧ g.isRetested = false ∧
          g.activeTime = m := of_decide_eq_true hprop
      refine ⟨hmem, hp.1, hp.2.1, hp.2.2.1, ?_⟩
      intro g' hg' h5 ha
      rw [hp.2.2.2]
      exact (maxActiveTime5m_spec gaps m hm).2 g' hg' h5 ha
  · unfold selectCandidateGap
    rcases hm : maxActiveTime5m gaps with _ | m
    · simp only [true_iff]
      intro g hg h5 ha _
      exact absurd (maxActiveTime5m_none gaps hm g hg h5 ha) (fun h => h)
    · constructor
      · intro hnone g hg h5 ha hr
        have hne : g.activeTime ≠ m := by
          intro he
          have := List.find?_eq_none.mp hnone g hg
          exact this (by simp [h5, ha, hr, he])
        have hle : g.activeTime ≤ m := (maxActiveTime5m_spec gaps m hm).2 g hg h5 ha
        rcases (maxActiveTime5m_spec gaps m hm).1 with ⟨g', hg', h5', ha', ht'⟩
        exact ⟨g', hg', h5', ha', by omega⟩
      · intro hall
        rw [List.find?_eq_none]
        intro g hg hp
        have hp' : g.timeFrame = "5m" ∧ g.isActive = true ∧ g.isRetested = false ∧
            g.activeTime = m := of_decide_eq_true hp
        rcases hall g hg hp'.1 hp'.2.1 hp'.2.2.1 with ⟨g', hg', h5', ha', hlt⟩
        have : g'.activeTime ≤ m := (maxActiveTime5m_spec gaps m hm).2 g' hg' h5' ha'
        omega

/-- Witness for C3's amended characterisation: on the single-gap store the
query selects `gapA`, and it is active, unretested and of maximal
`ActiveTime`. -/
theorem selectCandidateGap_characterisation_witness :
    gapA ∈ [gapA] ∧ gapA.timeFrame = "5m" ∧ gapA.isActive = true ∧
      gapA.isRetested = false ∧
      ∀ g' ∈ [gapA], g'.timeFrame = "5m" → g'.isActive = true →
        g'.activeTime ≤ gapA.activeTime :=
  (selectCandidateGap_characterisation [gapA]).1 gapA (by
    simp +decide [selectCandidateGap, maxActiveTime5m, gapA])

/-- What the outer candidate query guarantees about a returned row. -/
theorem selectCandidateGap_facts (gaps : List Gap) (g : Gap)
    (h : selectCandidateGap gaps = some g) :
    g ∈ gaps ∧ g.timeFrame = "5m" ∧ g.isActive = true ∧ g.isRetested = false := by
  unfold selectCandidateGap at h
  rcases hm : maxActiveTime5m gaps with _ | m
  · rw [hm] at h; exact absurd h (by simp)
  · rw [hm] at h
    have hprop := List.find?_some h
    have hmem := List.mem_of_find?_eq_some h
    have hp : g.timeFrame = "5m" ∧ g.isActive = true ∧ g.isRetested = false ∧
        g.activeTime = m := of_decide_eq_true hprop
    exact ⟨hmem, hp.1, hp.2.1, hp.2.2.1⟩

/-- With primary-key ids, `SELECT ... WHERE Id=?` finds exactly the member row. -/
theorem find_by_id_of_nodup (gaps : List Gap) (fvg : Gap) (hmem : fvg ∈ gaps)
    (hnodup : (gaps.map Gap.id).Nodup) :
    gaps.find? (fun g => decide (g.id = fvg.id)) = some fvg := by
  induction gaps with
  | nil => exact absurd hmem (List.not_mem_nil _)
  | cons g0 rest ih =>
      rw [List.map_cons, List.nodup_cons] at hnodup
      by_cases h0 : g0.id = fvg.id
      · have hfg : fvg = g0 := by
          rcases List.mem_cons.mp hmem with h | h
          · exact h
          · exact absurd (h0 ▸ List.mem_map_of_mem Gap.id h) hnodup.1
        subst hfg
        exact List.find?_cons_of_pos rest (by simp)
      · rw [List.find?_cons_of_neg rest (by simpa using h0)]
        refine ih ?_ hnodup.2
        rcases List.mem_cons.mp hmem with h | h
        · exact absurd (by rw [h]) h0
        · exact h

/-- Reading back a row by id after an id-preserving `UPDATE ... WHERE Id=?`
returns the updated row. -/
theorem find_by_id_map_update (f : Gap → Gap) (hf : ∀ g, (f g).id = g.id)
    (gaps : List Gap) (fvg : Gap) (hmem : fvg ∈ gaps)
    (hnodup : (gaps.map Gap.id).Nodup) :
    (gaps.map fun g => if g.id = fvg.id then f g else g).find?
      (fun g => decide (g.id = fvg.id)) = some (f fvg) := by
  induction gaps with
  | nil => exact absurd hmem (List.not_mem_nil _)
  | cons g0 rest ih =>
      rw [List.map_cons, List.nodup_cons] at hnodup
      by_cases h0 : g0.id = fvg.id
      · have hfg : fvg = g0 := by
          rcases List.mem_cons.mp hmem with h | h
          · exact h
          · exact absurd (h0 ▸ List.mem_map_of_mem Gap.id h) hnodup.1
        subst hfg
        rw [List.map_cons, if_pos rfl]
        exact List.find?_cons_of_pos _ (by simp [hf fvg])
      · rw [List.map_cons, if_neg h0, List.find?_cons_of_neg _ (by simpa using h0)]
        refine ih ?_ hnodup.2
        rcases List.mem_cons.mp hmem with h | h
        · exact absurd (by rw [h]) h0
        · exact h

/-- The Bool retest condition as the conjunction of the direction-dependent
price test and the strict time test. -/
theorem retestCond_iff (fvg : Gap) (c : Candle) :
    retestCond fvg c = true ↔
      ((if fvg.direction = Direction.Bullish
        then c.low ≤ fvg.fvgEnd + fvg.fvgEnd * (3/100000)
        else c.high ≥ fvg.fvgStart - fvg.fvgStart * (5/100000)) ∧
       c.openTime > fvg.activeTime) := by
  unfold retestCond
  by_cases hdir : fvg.direction = Direction.Bullish <;> simp [hdir]

/-- Full evaluation of `check_and_insert_retest_gaps` once a candidate gap and
a latest candle exist: the call either performs exactly the retest insert and
the `IsRetested` update (when the direction-dependent price condition and the
strict time condition hold) or leaves the store untouched. -/
theorem check_and_insert_eval (df1m : List Candle) (db : DB) (fvg : Gap) (c : Candle)
    (hg : selectCandidateGap db.gaps = some fvg) (hc : latestCandle df1m = some c)
    (hnodup : (db.gaps.map Gap.id).Nodup) :
    check_and_insert_retest_gaps df1m db =
      if ((if fvg.direction = Direction.Bullish
            then c.low ≤ fvg.fvgEnd + fvg.fvgEnd * (3/100000)
            else c.high ≥ fvg.fvgStart - fvg.fvgStart * (5/100000)) ∧
          c.openTime > fvg.activeTime) then
        { db with
          gaps := db.gaps.map fun g =>
            if g.id = fvg.id then { g with isRetested := true } else g,
          retests := db.retests ++ [newRetestRow (nextRetestId db.retests) fvg c] }
      else db := by
  obtain ⟨hmem, -, hact, -⟩ := selectCandidateGap_facts db.gaps fvg hg
  have hfind := find_by_id_of_nodup db.gaps fvg hmem hnodup
  have hfind2 := find_by_id_map_update (fun g => { g with isRetested := true })
    (fun g => rfl) db.gaps fvg hmem hnodup
  unfold check_and_insert_retest_gaps
  rw [hg, hc]
  by_cases hcond : (if fvg.direction = Direction.Bullish
      then c.low ≤ fvg.fvgEnd + fvg.fvgEnd * (3/100000)
      else c.high ≥ fvg.fvgStart - fvg.fvgStart * (5/100000)) ∧
      c.openTime > fvg.activeTime
  · have hdet : retestCond fvg c = true := (retestCond_iff fvg c).mpr hcond
    rw [if_pos hcond]
    simp only [hdet, ite_true]
    simp [hfind2, hact]
  · have hdet : retestCond fvg c = false := by
      cases hb : retestCond fvg c
      · rfl
      · exact absurd ((retestCond_iff fvg c).mp hb) hcond
    rw [if_neg hcond]
    simp only [hdet, Bool.false_eq_true, ite_false]
    simp [hfind, hact]

/-- Marking one gap retested changes neither the set of active 5m gaps nor
their activation times, so the `MAX(ActiveTime)` subquery is unchanged. -/
theorem maxActiveTime5m_map_mark (gaps : List Gap) (i : ℕ) :
    maxActiveTime5m (gaps.map fun g =>
      if g.id = i then { g with isRetested := true } else g) = maxActiveTime5m gaps := by
  unfold maxActiveTime5m
  have hl : ((gaps.map fun g => if g.id = i then { g with isRetested := true } else g).filter
        fun g => decide (g.timeFrame = "5m" ∧ g.isActive = true)).map Gap.activeTime =
      (gaps.filter fun g => decide (g.timeFrame = "5m" ∧ g.isActive = true)).map
        Gap.activeTime := by
    induction gaps with
    | nil => rfl
    | cons g0 rest ih =>
        by_cases h0 : g0.id = i
        · simp only [List.map_cons, if_pos h0, List.filter_cons]
          by_cases hp : g0.timeFrame = "5m" ∧ g0.isActive = true
          · rw [if_pos (by simpa using hp), if_pos (by simpa using hp)]
            simpa using ih
          · rw [if_neg (by simpa using hp), if_neg (by simpa using hp)]
            exact ih
        · simp only [List.map_cons, if_neg h0, List.filter_cons]
          by_cases hp : g0.timeFrame = "5m" ∧ g0.isActive = true
          · rw [if_pos (by simpa using hp), if_pos (by simpa using hp)]
            simpa using ih
          · rw [if_neg (by simpa using hp), if_neg (by simpa using hp)]
            exact ih
  rw [hl]

/-- After the candidate gap is marked retested, the candidate query matches
no row — provided activation times are unique among active 5m gaps, as they
are by construction (one detection event per close time). -/
theorem selectCandidateGap_after_mark (gaps : List Gap) (fvg : Gap)
    (hsel : selectCandidateGap gaps = some fvg)
    (huniq : ∀ g' ∈ gaps, g'.timeFrame = "5m" → g'.isActive = true →
      g'.activeTime = fvg.activeTime → g' = fvg) :
    selectCandidateGap (gaps.map fun g =>
      if g.id = fvg.id then { g with isRetested := true } else g) = none := by
  unfold selectCandidateGap at hsel ⊢
  rw [maxActiveTime5m_map_mark]
  rcases hm : maxActiveTime5m gaps with _ | m
  · rfl
  · rw [hm] at hsel
    have hsome := List.find?_some hsel
    have hprop : fvg.timeFrame = "5m" ∧ fvg.isActive = true ∧ fvg.isRetested = false ∧
        fvg.activeTime = m := of_decide_eq_true hsome
    rw [List.find?_eq_none]
    intro x hx hp
    have hx' : x.timeFrame = "5m" ∧ x.isActive = true ∧ x.isRetested = false ∧
        x.activeTime = m := of_decide_eq_true hp
    rcases List.mem_map.mp hx with ⟨g₀, h₀, he⟩
    by_cases hid : g₀.id = fvg.id
    · rw [if_pos hid] at he
      rw [← he] at hx'
      exact absurd hx'.2.2.1 (by simp)
    · rw [if_neg hid] at he
      subst he
      have : g₀ = fvg :=
        huniq g₀ h₀ hx'.1 hx'.2.1 (hx'.2.2.2.trans hprop.2.2.2.symm)
      exact hid (by rw [this])

/-- The retests table grows iff the code's own retest condition holds. -/
theorem check_and_insert_grow_iff (df1m : List Candle) (db : DB) (fvg : Gap) (c : Candle)
    (hg : selectCandidateGap db.gaps = some fvg) (hc : latestCandle df1m = some c)
    (hnodup : (db.gaps.map Gap.id).Nodup) :
    ((check_and_insert_retest_gaps df1m db).retests ≠ db.retests ↔
      (if fvg.direction = Direction.Bullish
        then c.low ≤ fvg.fvgEnd + fvg.fvgEnd * (3/100000)
        else c.high ≥ fvg.fvgStart - fvg.fvgStart * (5/100000)) ∧
      c.openTime > fvg.activeTime) := by
  rw [check_and_insert_eval df1m db fvg c hg hc hnodup]
  by_cases hcond : (if fvg.direction = Direction.Bullish
      then c.low ≤ fvg.fvgEnd + fvg.fvgEnd * (3/100000)
      else c.high ≥ fvg.fvgStart - fvg.fvgStart * (5/100000)) ∧
      c.openTime > fvg.activeTime
  · rw [if_pos hcond]
    refine iff_of_true ?_ hcond
    intro h
    have := congrArg List.length h
    simp at this
  · rw [if_neg hcond]
    exact iff_of_false (by simp) hcond

/-- C2 amended: re-run behaviour of the pipeline stages on identical input.
The retest stage is idempotent — once a retest fired, the marked gap no
longer matches the candidate query (given per-detection-event uniqueness of
activation times and primary-key ids), so an immediate re-run is a no-op.
`update_trade_status`, however, is not idempotent: a second invocation with
an unchanged latest close leaves a position unchanged — it either did not
change or was closed and is no longer fetched — except exactly when the
first invocation moved it from `Running` to `PartialBooked`, in which case a
further transition may fire on the re-run. -/
theorem positionStep_rerun_dichotomy :
    (∀ (c : ℚ) (p : Position),
      positionStep c (positionStep c p) = positionStep c p ∨
        (p.status = Status.Running ∧
          (positionStep c p).status = Status.PartialBooked)) ∧
    (∀ (df1m : List Candle) (db : DB) (fvg : Gap) (c : Candle),
      selectCandidateGap db.gaps = some fvg → latestCandle df1m = some c →
      (db.gaps.map Gap.id).Nodup →
      (∀ g' ∈ db.gaps, g'.timeFrame = "5m" → g'.isActive = true →
        g'.activeTime = fvg.activeTime → g' = fvg) →
      check_and_insert_retest_gaps df1m (check_and_insert_retest_gaps df1m db) =
        check_and_insert_retest_gaps df1m db) := by
  constructor
  · intro c p
    by_cases hopen : p.isOpen
    · rcases positionUpdate_cases c p with h | h | h
      · left
        have e : positionStep c p = p := by rw [positionStep_of_isOpen c p hopen, h]
        rw [e]; exact e
      · left
        have e : positionStep c p = (positionUpdate c p).1 :=
          positionStep_of_isOpen c p hopen
        rw [e, positionStep_of_closed c _ h]
      · right
        exact ⟨h.1, by rw [positionStep_of_isOpen c p hopen]; exact h.2⟩
    · left
      have e : positionStep c p = p := by
        simp [positionStep, hopen]
      rw [e]; exact e
  · intro df1m db fvg c hsel hlc hnodup huniq
    have heval := check_and_insert_eval df1m db fvg c hsel hlc hnodup
    by_cases hcond : (if fvg.direction = Direction.Bullish
        then c.low ≤ fvg.fvgEnd + fvg.fvgEnd * (3/100000)
        else c.high ≥ fvg.fvgStart - fvg.fvgStart * (5/100000)) ∧
        c.openTime > fvg.activeTime
    · rw [heval, if_pos hcond]
      have hsel2 := selectCandidateGap_after_mark db.gaps fvg hsel huniq
      unfold check_and_insert_retest_gaps
      dsimp only
      rw [hsel2]
    · rw [heval, if_neg hcond]
      rw [heval, if_neg hcond]

/-- Witness for C2's amended statement: on the single-gap store, running the
retest stage twice on the same candle equals running it once. -/
theorem positionStep_rerun_dichotomy_witness :
    check_and_insert_retest_gaps [dipCandle]
        (check_and_insert_retest_gaps [dipCandle] dbA) =
      check_and_insert_retest_gaps [dipCandle] dbA :=
  positionStep_rerun_dichotomy.2 [dipCandle] dbA gapA dipCandle
    (by norm_num [selectCandidateGap, maxActiveTime5m, dbA, gapA])
    (by norm_num [latestCandle, dipCandle])
    (by simp [dbA])
    (by
      intro g' hg' _ _ _
      simpa [dbA] using hg')

/-- C4 counterexample: the Bearish retest fires (a RetestGap row is inserted)
although the candle's high does not reach `gapStart` adjusted by the Bullish
tolerance magnitude 0.003%: the code uses the larger 0.005% on the Bearish
side, so the claimed symmetric-tolerance condition disagrees with the code on
this candle. -/
theorem bearish_tolerance_not_symmetric :
    (check_and_insert_retest_gaps [touchCandle] dbBear).retests ≠ dbBear.retests ∧
    ¬(touchCandle.high ≥ gapBear.fvgStart - gapBear.fvgStart * (3/100000)) := by
  constructor
  · norm_num [check_and_insert_retest_gaps, retestCond, selectCandidateGap,
      maxActiveTime5m, dbBear, gapBear, touchCandle, latestCandle, newRetestRow,
      nextRetestId, deactivateRetestsOf]
  · norm_num [touchCandle, gapBear]

/-- C4 amended: the Bullish candidate's retest condition uses the tolerance
`gapEnd + gapEnd·0.00003` as claimed, but the Bearish condition uses the
larger tolerance `gapStart − gapStart·0.00005` (0.005%, the trade-trigger ε),
not the symmetric 0.003% magnitude. -/
theorem retest_tolerance_values (df1m : List Candle) (db : DB) (fvg : Gap) (c : Candle)
    (hg : selectCandidateGap db.gaps = some fvg) (hc : latestCandle df1m = some c)
    (hnodup : (db.gaps.map Gap.id).Nodup) :
    (fvg.direction = Direction.Bullish →
      ((check_and_insert_retest_gaps df1m db).retests ≠ db.retests ↔
        c.low ≤ fvg.fvgEnd + fvg.fvgEnd * (3/100000) ∧ c.openTime > fvg.activeTime)) ∧
    (fvg.direction = Direction.Bearish →
      ((check_and_insert_retest_gaps df1m db).retests ≠ db.retests ↔
        c.high ≥ fvg.fvgStart - fvg.fvgStart * (5/100000) ∧ c.openTime > fvg.activeTime)) := by
  have h := check_and_insert_grow_iff df1m db fvg c hg hc hnodup
  constructor
  · intro hdir; rw [h, if_pos hdir]
  · intro hdir
    rw [h, if_neg (by simp [hdir])]

/-- Witness for C4's amended statement: at the concrete Bearish store the
re-stated condition is exactly the code's behaviour. -/
theorem retest_tolerance_values_witness :
    (check_and_insert_retest_gaps [touchCandle] dbBear).retests ≠ dbBear.retests ↔
      touchCandle.high ≥ gapBear.fvgStart - gapBear.fvgStart * (5/100000) ∧
      touchCandle.openTime > gapBear.activeTime :=
  (retest_tolerance_values [touchCandle] dbBear gapBear touchCandle
      (by norm_num [selectCandidateGap, maxActiveTime5m, dbBear, gapBear])
      (by norm_num [latestCandle, touchCandle])
      (by simp [dbBear])).2 rfl

/-- C8: a RetestGap row is inserted only when the candidate gap was active
and unretested immediately before and the latest candle's open time is
strictly greater than the gap's `ActiveTime`; when the preconditions fail for
the latest candle the store is left completely unchanged. -/
theorem retest_event_preconditions (df1m : List Candle) (db : DB)
    (hnodup : (db.gaps.map Gap.id).Nodup) :
    ((check_and_insert_retest_gaps df1m db).retests ≠ db.retests →
      ∃ g c, selectCandidateGap db.gaps = some g ∧ latestCandle df1m = some c ∧
        g ∈ db.gaps ∧ g.isActive = true ∧ g.isRetested = false ∧
        c.openTime > g.activeTime ∧
        (check_and_insert_retest_gaps df1m db).retests =
          db.retests ++ [newRetestRow (nextRetestId db.retests) g c]) ∧
    (∀ g c, selectCandidateGap db.gaps = some g → latestCandle df1m = some c →
      ¬(g.isActive = true ∧ g.isRetested = false ∧ c.openTime > g.activeTime) →
      check_and_insert_retest_gaps df1m db = db) := by
  constructor
  · intro hne
    rcases hgo : selectCandidateGap db.gaps with _ | g
    · exfalso
      apply hne
      unfold check_and_insert_retest_gaps
      rw [hgo]
    · rcases hco : latestCandle df1m with _ | c
      · exfalso
        apply hne
        unfold check_and_insert_retest_gaps
        rw [hgo, hco]
      · obtain ⟨hmem, -, hact, hret⟩ := selectCandidateGap_facts db.gaps g hgo
        have heval := check_and_insert_eval df1m db g c hgo hco hnodup
        by_cases hcond : (if g.direction = Direction.Bullish
            then c.low ≤ g.fvgEnd + g.fvgEnd * (3/100000)
            else c.high ≥ g.fvgStart - g.fvgStart * (5/100000)) ∧
            c.openTime > g.activeTime
        · refine ⟨g, c, rfl, rfl, hmem, hact, hret, hcond.2, ?_⟩
          rw [heval, if_pos hcond]
        · exfalso
          apply hne
          rw [heval, if_neg hcond]
  · intro g c hgo hco hnc
    obtain ⟨hmem, -, hact, hret⟩ := selectCandidateGap_facts db.gaps g hgo
    have heval := check_and_insert_eval df1m db g c hgo hco hnodup
    have hcond : ¬((if g.direction = Direction.Bullish
        then c.low ≤ g.fvgEnd + g.fvgEnd * (3/100000)
        else c.high ≥ g.fvgStart - g.fvgStart * (5/100000)) ∧
        c.openTime > g.activeTime) := fun hc' => hnc ⟨hact, hret, hc'.2⟩
    rw [heval, if_neg hcond]

/-- Witness for C8: with a candle not strictly after the gap's activation the
call leaves the store unchanged. -/
theorem retest_event_preconditions_witness :
    check_and_insert_retest_gaps [earlyCandle] dbA = dbA :=
  (retest_event_preconditions [earlyCandle] dbA (by simp [dbA])).2 gapA earlyCandle
    (by norm_num [selectCandidateGap, maxActiveTime5m, dbA, gapA])
    (by norm_num [latestCandle, earlyCandle])
    (by norm_num [gapA, earlyCandle])

/-- C5 counterexample: a gap whose raw relative size 0.016% lies below the
0.02% threshold is emitted anyway, because the filter tests the *rounded*
`gapSizePct` (round(0.016, 2) = 0.02 ≥ 0.02). -/
theorem small_gap_emitted :
    ∃ f ∈ fvgScan "BTCUSD" "5m" 5 [s0, { s0 with openTime := 5 }, tinyGapCandle],
      (f.fvgEnd - f.fvgStart) / f.fvgStart * 100 < 2/100 := by
  have he : fvgScan "BTCUSD" "5m" 5 [s0, { s0 with openTime := 5 }, tinyGapCandle] =
      [{ symbol := "BTCUSD", activeTime := 15, fvgStart := 100, fvgEnd := 100016/1000,
         direction := Direction.Bullish, timeFrame := "5m", gapSize := 1/50,
         distanceFromVWAP := 1/50 }] := by
    norm_num [fvgScan, detectTriple, round2, roundHalfEven, s0, tinyGapCandle, Int.even_iff]
  rw [he]
  refine ⟨_, List.mem_singleton_self _, by norm_num⟩

/-- C5 amended: every emitted gap has `gapSizePct = round2(relative size)`
with reference price `gapStart` for Bullish (= prev2.high) and `curr.high`
for Bearish — both equal the stored `FVGStart` — and no gap whose *rounded*
size is below 0.02 is emitted (the raw size may be as low as 0.015). -/
theorem fvgScan_gapSize (symbol timeFrame : String) (tfMin : ℕ) :
    ∀ (candles : List Candle) (f : NewFvg), f ∈ fvgScan symbol timeFrame tfMin candles →
      f.gapSize = round2 ((f.fvgEnd - f.fvgStart) / f.fvgStart * 100) ∧
      2/100 ≤ f.gapSize := by
  intro candles
  induction candles with
  | nil => intro f h; simp [fvgScan] at h
  | cons a tail ih =>
      intro f h
      rcases tail with _ | ⟨b, tail2⟩
      · simp [fvgScan] at h
      rcases tail2 with _ | ⟨c, rest⟩
      · simp [fvgScan] at h
      simp only [fvgScan] at h
      rcases List.mem_append.mp h with h | h
      · simp only [detectTriple] at h
        split_ifs at h with h1 h2 h3 h4
        all_goals first
          | exact absurd h (List.not_mem_nil f)
          | · have hf := List.mem_singleton.mp h
              subst hf
              exact ⟨rfl, by assumption⟩
      · exact ih f h

/-- Witness for C5's amended statement at the spec scenario triple
(gapStart=100, gapEnd=106, gapSizePct=6.0). -/
theorem fvgScan_gapSize_witness :
    scanGapRec.gapSize = round2 ((scanGapRec.fvgEnd - scanGapRec.fvgStart) /
      scanGapRec.fvgStart * 100) ∧ 2/100 ≤ scanGapRec.gapSize :=
  fvgScan_gapSize "BTCUSD" "5m" 5 [s0, s1, s2] scanGapRec (by
    have he : fvgScan "BTCUSD" "5m" 5 [s0, s1, s2] = [scanGapRec] := by
      norm_num [fvgScan, detectTriple, round2, roundHalfEven, s0, s1, s2, scanGapRec,
        Int.even_iff]
    rw [he]
    exact List.mem_singleton_self _)

/-- C6 counterexample: with entryClose = 110 and gapStart = 100 the inserted
values are 100, 130 and 140 — not the claimed unrounded 99.995, ≈130.01 and
≈140.015 — because `trigger_trade` rounds every level to two decimals
(`round(99.995, 2) = 100.0` in Python). -/
theorem trigger_values_are_rounded :
    (trigger_trade "BTCUSD" [entryCandle] dbRT).trades = [insertedTrade] ∧
    insertedTrade.intialStopLoss ≠ 99995/1000 := by
  constructor
  · norm_num [trigger_trade, selectRetest, nextTradeId, nextStatusId, round2,
      roundHalfEven, dbRT, rg1, gapA, entryCandle, insertedTrade, Int.even_iff]
  · norm_num [insertedTrade]

/-- C6 amended: on a breakout the inserted trade carries
`initialStopLoss = round2(gapStart·(1−ε))` (ε = 0.00005) for Bullish,
`round2(gapEnd·(1+ε))` for Bearish, a stop distance rounded to 2 decimals,
and targets `round2(close ± 2·dist)`, `round2(close ± 3·dist)`;
`modifiedStopLoss` starts equal to `initialStopLoss` and lot = remaining
lot = 200. -/
theorem trigger_trade_values (symbol : String) (df1m : List Candle) (db : DB)
    (rg : RetestRow) (fvgRow : Gap) (c : Candle)
    (hc : df1m.getLast? = some c) (hr : selectRetest db.retests = some rg)
    (htrig : if rg.direction = Direction.Bullish then c.close > rg.high
             else c.close < rg.low)
    (hfvg : db.gaps.find? (fun g => decide (g.id = rg.fairValueGap)) = some fvgRow) :
    ∃ t ∈ (trigger_trade symbol df1m db).trades,
      t.direction = rg.direction ∧ t.lot = 200 ∧ t.remainingLot = 200 ∧
      t.modifiedStopLoss = t.intialStopLoss ∧
      (rg.direction = Direction.Bullish →
        t.intialStopLoss = round2 (fvgRow.fvgStart - fvgRow.fvgStart * (5/100000)) ∧
        t.intialTarget = round2 (c.close + 2 * round2 (c.close - t.intialStopLoss)) ∧
        t.modifiedTarget = round2 (c.close + 3 * round2 (c.close - t.intialStopLoss))) ∧
      (rg.direction = Direction.Bearish →
        t.intialStopLoss = round2 (fvgRow.fvgEnd + fvgRow.fvgEnd * (5/100000)) ∧
        t.intialTarget = round2 (c.close - 2 * round2 (t.intialStopLoss - c.close)) ∧
        t.modifiedTarget = round2 (c.close - 3 * round2 (t.intialStopLoss - c.close))) := by
  unfold trigger_trade
  rw [hc]
  dsimp only
  rw [hr]
  dsimp only
  have htb : (if rg.direction = Direction.Bullish then decide (c.close > rg.high)
      else decide (c.close < rg.low)) = true := by
    by_cases hdir : rg.direction = Direction.Bullish
    · rw [if_pos hdir] at htrig ⊢
      exact decide_eq_true htrig
    · rw [if_neg hdir] at htrig ⊢
      exact decide_eq_true htrig
  rw [htb, if_neg (by simp), hfvg]
  dsimp only
  refine ⟨_, List.mem_append_right _ (List.mem_singleton_self _), rfl, rfl, rfl, rfl,
    ?_, ?_⟩
  · intro hdir
    refine ⟨by simp [hdir], by simp [hdir], by simp [hdir]⟩
  · intro hdir
    have hnb : ¬(rg.direction = Direction.Bullish) := by simp [hdir]
    refine ⟨by simp [hnb], by simp [hnb], by simp [hnb]⟩

/-- Witness for C6's amended statement at the concrete breakout scenario. -/
theorem trigger_trade_values_witness :
    ∃ t ∈ (trigger_trade "BTCUSD" [entryCandle] dbRT).trades,
      t.direction = rg1.direction ∧ t.lot = 200 ∧ t.remainingLot = 200 ∧
      t.modifiedStopLoss = t.intialStopLoss ∧
      (rg1.direction = Direction.Bullish →
        t.intialStopLoss = round2 (gapA.fvgStart - gapA.fvgStart * (5/100000)) ∧
        t.intialTarget = round2 (entryCandle.close +
          2 * round2 (entryCandle.close - t.intialStopLoss)) ∧
        t.modifiedTarget = round2 (entryCandle.close +
          3 * round2 (entryCandle.close - t.intialStopLoss))) ∧
      (rg1.direction = Direction.Bearish →
        t.intialStopLoss = round2 (gapA.fvgEnd + gapA.fvgEnd * (5/100000)) ∧
        t.intialTarget = round2 (entryCandle.close -
          2 * round2 (t.intialStopLoss - entryCandle.close)) ∧
        t.modifiedTarget = round2 (entryCandle.close -
          3 * round2 (t.intialStopLoss - entryCandle.close))) :=
  trigger_trade_values "BTCUSD" [entryCandle] dbRT rg1 gapA entryCandle rfl
    (by norm_num [selectRetest, dbRT, rg1])
    (by norm_num [rg1, entryCandle])
    (by norm_num [dbRT, gapA, rg1])

/-- C9: when the breakout condition is met but the owning `FairValueGaps` row
is missing, `trigger_trade` leaves the store completely unchanged: no Trade,
no TradeStatus, and the RetestGap row keeps `IsTraded = 0`. -/
theorem trigger_trade_missing_gap_noop (symbol : String) (df1m : List Candle)
    (db : DB) (rg : RetestRow) (c : Candle)
    (hc : df1m.getLast? = some c) (hr : selectRetest db.retests = some rg)
    (htrig : if rg.direction = Direction.Bullish then c.close > rg.high
             else c.close < rg.low)
    (hmiss : db.gaps.find? (fun g => decide (g.id = rg.fairValueGap)) = none) :
    trigger_trade symbol df1m db = db := by
  unfold trigger_trade
  rw [hc]
  dsimp only
  rw [hr]
  dsimp only
  have htb : (if rg.direction = Direction.Bullish then decide (c.close > rg.high)
      else decide (c.close < rg.low)) = true := by
    by_cases hdir : rg.direction = Direction.Bullish
    · rw [if_pos hdir] at htrig ⊢
      exact decide_eq_true htrig
    · rw [if_neg hdir] at htrig ⊢
      exact decide_eq_true htrig
  rw [htb, if_neg (by simp), hmiss]

/-- Witness for C9: breakout close 110 > 108 with the owning gap absent. -/
theorem trigger_trade_missing_gap_noop_witness :
    trigger_trade "BTCUSD" [entryCandle] dbNoGap = dbNoGap :=
  trigger_trade_missing_gap_noop "BTCUSD" [entryCandle] dbNoGap rg1 entryCandle rfl
    (by norm_num [selectRetest, dbNoGap, rg1])
    (by norm_num [rg1, entryCandle])
    (by norm_num [dbNoGap])

theorem maxGapId_ge (gaps : List Gap) : ∀ g ∈ gaps, g.id ≤ maxGapId gaps := by
  induction gaps with
  | nil => simp
  | cons g0 rest ih =>
      intro g hg
      rcases List.mem_cons.mp hg with h | h
      · subst h
        exact le_max_left _ _
      · exact le_trans (ih g h) (le_max_right _ _)

/-- The insert loop only appends rows, and every appended row's id is fresh
with respect to the table it was inserted into. -/
theorem insertNewFvgs_skeleton (l : List NewFvg) : ∀ gaps : List Gap,
    ∃ tail, insertNewFvgs gaps l = gaps ++ tail ∧
      ∀ g' ∈ tail, ∀ g₀ ∈ gaps, g₀.id ≠ g'.id := by
  induction l with
  | nil =>
      intro gaps
      exact ⟨[], by simp [insertNewFvgs], by simp⟩
  | cons f fs ih =>
      intro gaps
      by_cases he : fvgExists gaps f
      · obtain ⟨tail, ht, hf⟩ := ih gaps
        refine ⟨tail, ?_, hf⟩
        simpa [insertNewFvgs, he] using ht
      · obtain ⟨tail, ht, hf⟩ := ih (gaps ++ [newFvgRow (nextGapId gaps) f])
        refine ⟨newFvgRow (nextGapId gaps) f :: tail, ?_, ?_⟩
        · rw [insertNewFvgs, if_neg he, ht, List.append_assoc, List.singleton_append]
        · intro g' hg' g₀ h₀
          rcases List.mem_cons.mp hg' with h | h
          · subst h
            have := maxGapId_ge gaps g₀ h₀
            simp only [newFvgRow, nextGapId]
            omega
          · exact hf g' h (g₀) (List.mem_append_left _ h₀)

/-- Under primary-key uniqueness, the rows with a member's id are exactly
that member. -/
theorem rowsWithId_of_nodup (gaps : List Gap) (g : Gap) (hmem : g ∈ gaps)
    (hnodup : (gaps.map Gap.id).Nodup) : rowsWithId gaps g.id = [g] := by
  induction gaps with
  | nil => exact absurd hmem (List.not_mem_nil _)
  | cons g0 rest ih =>
      rw [List.map_cons, List.nodup_cons] at hnodup
      by_cases h0 : g0.id = g.id
      · have hfg : g = g0 := by
          rcases List.mem_cons.mp hmem with h | h
          · exact h
          · exact absurd (h0 ▸ List.mem_map_of_mem Gap.id h) hnodup.1
        subst hfg
        have hrest : rowsWithId rest g.id = [] := by
          rw [rowsWithId, List.filter_eq_nil_iff]
          intro a ha hc
          exact hnodup.1 ((of_decide_eq_true hc) ▸ List.mem_map_of_mem Gap.id ha)
        rw [rowsWithId, List.filter_cons, if_pos (by simp)]
        rw [rowsWithId] at hrest
        rw [hrest]
      · have hm' : g ∈ rest := by
          rcases List.mem_cons.mp hmem with h | h
          · exact absurd (by rw [h]) h0
          · exact h
        rw [rowsWithId, List.filter_cons, if_neg (by simp [h0])]
        exact ih hm' hnodup.2

theorem rowsWithId_append (xs ys : List Gap) (i : ℕ) :
    rowsWithId (xs ++ ys) i = rowsWithId xs i ++ rowsWithId ys i := by
  simp [rowsWithId, List.filter_append]

/-- An `UPDATE ... WHERE Id = j` with an id-preserving assignment does not
change the rows carrying a different id. -/
theorem updateGapRow_rowsWithId_ne (gaps : List Gap) (j i : ℕ) (f : Gap → Gap)
    (hf : ∀ g, (f g).id = g.id) (hne : j ≠ i) :
    rowsWithId (updateGapRow gaps j f) i = rowsWithId gaps i := by
  induction gaps with
  | nil => rfl
  | cons g0 rest ih =>
      unfold updateGapRow rowsWithId at ih ⊢
      simp only [List.map_cons, List.filter_cons]
      by_cases h0 : g0.id = j
      · rw [if_pos h0, if_neg (by simp [hf g0, h0, hne]), if_neg (by simp [h0, hne]), ih]
      · rw [if_neg h0]
        by_cases hi : g0.id = i
        · rw [if_pos (by simp [hi]), if_pos (by simp [hi]), ih]
        · rw [if_neg (by simp [hi]), if_neg (by simp [hi]), ih]

/-- An `UPDATE ... WHERE Id = j` maps exactly the rows carrying id `j`. -/
theorem updateGapRow_rowsWithId_self (gaps : List Gap) (j : ℕ) (f : Gap → Gap)
    (hf : ∀ g, (f g).id = g.id) :
    rowsWithId (updateGapRow gaps j f) j = (rowsWithId gaps j).map f := by
  induction gaps with
  | nil => rfl
  | cons g0 rest ih =>
      unfold updateGapRow rowsWithId at ih ⊢
      simp only [List.map_cons, List.filter_cons]
      by_cases h0 : g0.id = j
      · rw [if_pos h0, if_pos (by simp [hf g0, h0]), if_pos (by simp [h0]), List.map_cons, ih]
      · rw [if_neg h0, if_neg (by simp [h0]), if_neg (by simp [h0]), ih]

/-- Membership in an updated table comes from membership in the old table. -/
theorem updateGapRow_mem (gaps : List Gap) (j : ℕ) (f : Gap → Gap) :
    ∀ g' ∈ updateGapRow gaps j f, ∃ g₀ ∈ gaps, g' = g₀ ∨ g' = f g₀ := by
  intro g' hg'
  rcases List.mem_map.mp hg' with ⟨g₀, h₀, he⟩
  by_cases h : g₀.id = j
  · exact ⟨g₀, h₀, Or.inr (by rw [← he, if_pos h])⟩
  · exact ⟨g₀, h₀, Or.inl (by rw [← he, if_neg h])⟩

theorem agingOne_eq_inactive (tfMin : ℕ) (now : ℤ) (cl : ℚ) (db : DB) (fvg : Gap)
    (h : fvg.isActive = false) : agingOne tfMin now cl db fvg = db := by
  unfold agingOne
  rw [if_neg (by simp [h])]

theorem agingOne_eq_not_filled (tfMin : ℕ) (now : ℤ) (cl : ℚ) (db : DB) (fvg : Gap)
    (hact : fvg.isActive = true) (hfill : ¬ gapFilled fvg cl) :
    agingOne tfMin now cl db fvg =
      { db with
        gaps := updateGapRow db.gaps fvg.id
          fun g => { g with duration := roundedDuration tfMin now fvg } } := by
  unfold agingOne
  rw [if_pos (by simp [hact])]
  dsimp only
  rw [if_neg hfill]
  rfl

theorem agingOne_eq_filled (tfMin : ℕ) (now : ℤ) (cl : ℚ) (db : DB) (fvg : Gap)
    (hact : fvg.isActive = true) (hfill : gapFilled fvg cl) :
    agingOne tfMin now cl db fvg =
      { db with
        gaps := updateGapRow
          (updateGapRow db.gaps fvg.id
            (fun g => { g with duration := roundedDuration tfMin now fvg }))
          fvg.id (fun g => { g with isActive := false }),
        retests := deactivateRetestsOf db.retests fvg.id } := by
  unfold agingOne
  rw [if_pos (by simp [hact])]
  dsimp only
  rw [if_pos hfill]
  rfl

theorem agingPass_cons (tfMin : ℕ) (now : ℤ) (cl : ℚ) (db : DB) (fvg : Gap)
    (l : List Gap) :
    agingPass tfMin now cl db (fvg :: l) =
      agingPass tfMin now cl (agingOne tfMin now cl db fvg) l := rfl

theorem agingPass_append (tfMin : ℕ) (now : ℤ) (cl : ℚ) (xs ys : List Gap) :
    ∀ db : DB, agingPass tfMin now cl db (xs ++ ys) =
      agingPass tfMin now cl (agingPass tfMin now cl db xs) ys := by
  induction xs with
  | nil => intro db; rfl
  | cons x xs ih => intro db; rw [List.cons_append, agingPass_cons, agingPass_cons, ih]

/-- One aging iteration for a row with a different id does not change the
rows carrying the target id. -/
theorem agingOne_rowsWithId_ne (tfMin : ℕ) (now : ℤ) (cl : ℚ) (db : DB) (fvg : Gap)
    (i : ℕ) (hne : fvg.id ≠ i) :
    rowsWithId (agingOne tfMin now cl db fvg).gaps i = rowsWithId db.gaps i := by
  rcases hb : fvg.isActive with _ | _
  · rw [agingOne_eq_inactive tfMin now cl db fvg hb]
  · by_cases hfill : gapFilled fvg cl
    · rw [agingOne_eq_filled tfMin now cl db fvg hb hfill]
      dsimp only
      rw [updateGapRow_rowsWithId_ne _ fvg.id i
          (fun g => { g with isActive := false }) (fun g => rfl) hne,
        updateGapRow_rowsWithId_ne _ fvg.id i
          (fun g => { g with duration := roundedDuration tfMin now fvg })
          (fun g => rfl) hne]
    · rw [agingOne_eq_not_filled tfMin now cl db fvg hb hfill]
      dsimp only
      rw [updateGapRow_rowsWithId_ne _ fvg.id i
          (fun g => { g with duration := roundedDuration tfMin now fvg })
          (fun g => rfl) hne]

/-- Frame: iterating the pass over snapshot rows of other ids leaves the
target id's rows alone. -/
theorem agingPass_rowsWithId_frame (tfMin : ℕ) (now : ℤ) (cl : ℚ) (l : List Gap)
    (i : ℕ) (h : ∀ fvg ∈ l, fvg.id ≠ i) :
    ∀ db : DB, rowsWithId (agingPass tfMin now cl db l).gaps i = rowsWithId db.gaps i := by
  induction l with
  | nil => intro db; rfl
  | cons fvg l ih =>
      intro db
      rw [agingPass_cons,
        ih (fun x hx => h x (List.mem_cons_of_mem fvg hx)),
        agingOne_rowsWithId_ne tfMin now cl db fvg i (h fvg (List.mem_cons_self fvg l))]

theorem deactivateRetestsOf_self (rs : List RetestRow) (i : ℕ) :
    retestsAllDeact (deactivateRetestsOf rs i) i := by
  intro r hr hfk
  rcases List.mem_map.mp hr with ⟨r₀, h₀, he⟩
  by_cases hj : r₀.fairValueGap = i
  · rw [← he, if_pos hj]
  · rw [← he, if_neg hj] at hfk
    exact absurd hfk hj

theorem deactivateRetestsOf_preserves (rs : List RetestRow) (i j : ℕ)
    (h : retestsAllDeact rs i) : retestsAllDeact (deactivateRetestsOf rs j) i := by
  intro r hr hfk
  rcases List.mem_map.mp hr with ⟨r₀, h₀, he⟩
  by_cases hj : r₀.fairValueGap = j
  · rw [← he, if_pos hj]
  · rw [← he, if_neg hj] at hfk ⊢
    exact h r₀ h₀ hfk

theorem agingOne_retests_preserves (tfMin : ℕ) (now : ℤ) (cl : ℚ) (db : DB)
    (fvg : Gap) (i : ℕ) (h : retestsAllDeact db.retests i) :
    retestsAllDeact (agingOne tfMin now cl db fvg).retests i := by
  rcases hb : fvg.isActive with _ | _
  · rw [agingOne_eq_inactive tfMin now cl db fvg hb]; exact h
  · by_cases hfill : gapFilled fvg cl
    · rw [agingOne_eq_filled tfMin now cl db fvg hb hfill]
      exact deactivateRetestsOf_preserves db.retests i fvg.id h
    · rw [agingOne_eq_not_filled tfMin now cl db fvg hb hfill]
      exact h

theorem agingPass_retests_preserves (tfMin : ℕ) (now : ℤ) (cl : ℚ) (l : List Gap)
    (i : ℕ) : ∀ db : DB, retestsAllDeact db.retests i →
      retestsAllDeact (agingPass tfMin now cl db l).retests i := by
  induction l with
  | nil => intro db h; exact h
  | cons fvg l ih =>
      intro db h
      rw [agingPass_cons]
      exact ih _ (agingOne_retests_preserves tfMin now cl db fvg i h)

theorem mem_of_rowsWithId {gaps : List Gap} {i : ℕ} {g' : Gap}
    (h : g' ∈ rowsWithId gaps i) : g' ∈ gaps :=
  List.mem_of_mem_filter h

theorem mem_rowsWithId {gaps : List Gap} {i : ℕ} {g' : Gap}
    (h : g' ∈ gaps) (hid : g'.id = i) : g' ∈ rowsWithId gaps i :=
  List.mem_filter.mpr ⟨h, by simp [hid]⟩

/-- Behaviour of one `update_fvg_table` call on a pre-existing active gap of
the tracked symbol/timeframe: the gap's rows end deactivated exactly when the
latest close fills the gap, and in that case every RetestGap row referencing
it is deactivated too. -/
theorem update_fvg_row_behaviour (symbol timeFrame : String) (tfMin : ℕ) (now : ℤ)
    (ohlc : List Candle) (db : DB) (c : Candle)
    (hlast : ohlc.getLast? = some c) (hnodup : (db.gaps.map Gap.id).Nodup)
    (g : Gap) (hg : g ∈ db.gaps) (hsym : g.symbol = symbol)
    (htf : g.timeFrame = timeFrame) (hact : g.isActive = true) :
    ((∀ g' ∈ (update_fvg_table symbol timeFrame tfMin now ohlc db).gaps,
        g'.id = g.id → g'.isActive = false) ↔ gapFilled g c.close) ∧
    (gapFilled g c.close →
      retestsAllDeact (update_fvg_table symbol timeFrame tfMin now ohlc db).retests g.id) := by
  obtain ⟨tail, htail, hfresh⟩ :=
    insertNewFvgs_skeleton (fvgScan symbol timeFrame tfMin ohlc) db.gaps
  have hdb' : update_fvg_table symbol timeFrame tfMin now ohlc db =
      agingPass tfMin now c.close
        { db with gaps := insertNewFvgs db.gaps (fvgScan symbol timeFrame tfMin ohlc) }
        (db.gaps.filter fun x => decide (x.symbol = symbol ∧ x.timeFrame = timeFrame)) := by
    unfold update_fvg_table
    rw [hlast]
  have hgex : g ∈ db.gaps.filter fun x =>
      decide (x.symbol = symbol ∧ x.timeFrame = timeFrame) :=
    List.mem_filter.mpr ⟨hg, by simp [hsym, htf]⟩
  have hexnodup : ((db.gaps.filter fun x =>
      decide (x.symbol = symbol ∧ x.timeFrame = timeFrame)).map Gap.id).Nodup :=
    ((List.filter_sublist db.gaps).map Gap.id).nodup hnodup
  obtain ⟨l₁, l₂, hsplit⟩ := List.append_of_mem hgex
  rw [hsplit] at hdb' hexnodup
  have h1 : (l₁.map Gap.id ++ g.id :: l₂.map Gap.id).Nodup := by
    simpa using hexnodup
  have hne₁ : ∀ fvg ∈ l₁, fvg.id ≠ g.id := by
    intro fvg hf heq
    exact (List.nodup_append.mp h1).2.2 (List.mem_map_of_mem Gap.id hf)
      (heq ▸ List.mem_cons_self _ _)
  have hne₂ : ∀ fvg ∈ l₂, fvg.id ≠ g.id := by
    intro fvg hf heq
    have h2 := (List.nodup_append.mp h1).2.1
    rw [List.nodup_cons] at h2
    exact h2.1 (heq ▸ List.mem_map_of_mem Gap.id hf)
  have hrows₁ : rowsWithId
      ({ db with gaps := insertNewFvgs db.gaps (fvgScan symbol timeFrame tfMin ohlc)} : DB).gaps
      g.id = [g] := by
    dsimp only
    rw [htail, rowsWithId_append, rowsWithId_of_nodup db.gaps g hg hnodup]
    have hzero : rowsWithId tail g.id = [] := by
      rw [rowsWithId, List.filter_eq_nil_iff]
      intro a ha hc
      exact hfresh a ha g hg ((of_decide_eq_true hc).symm)
    rw [hzero]
    simp
  rw [agingPass_append, agingPass_cons] at hdb'
  have hrowsA : rowsWithId (agingPass tfMin now c.close
      { db with gaps := insertNewFvgs db.gaps (fvgScan symbol timeFrame tfMin ohlc)}
      l₁).gaps g.id = [g] := by
    rw [agingPass_rowsWithId_frame tfMin now c.close l₁ g.id hne₁, hrows₁]
  by_cases hfill : gapFilled g c.close
  · have hB := agingOne_eq_filled tfMin now c.close
      (agingPass tfMin now c.close
        { db with gaps := insertNewFvgs db.gaps (fvgScan symbol timeFrame tfMin ohlc)} l₁)
      g hact hfill
    have hrowsB : rowsWithId (agingOne tfMin now c.close
        (agingPass tfMin now c.close
          { db with gaps := insertNewFvgs db.gaps (fvgScan symbol timeFrame tfMin ohlc)} l₁)
        g).gaps g.id =
        [{ { g with duration := roundedDuration tfMin now g } with isActive := false }] := by
      rw [hB]
      dsimp only
      rw [updateGapRow_rowsWithId_self _ g.id
          (fun x => { x with isActive := false }) (fun x => rfl),
        updateGapRow_rowsWithId_self _ g.id
          (fun x => { x with duration := roundedDuration tfMin now g }) (fun x => rfl),
        hrowsA]
      rfl
    have hrowsF : rowsWithId
        (update_fvg_table symbol timeFrame tfMin now ohlc db).gaps g.id =
        [{ { g with duration := roundedDuration tfMin now g } with isActive := false }] := by
      rw [hdb', agingPass_rowsWithId_frame tfMin now c.close l₂ g.id hne₂, hrowsB]
    constructor
    · refine iff_of_true ?_ hfill
      intro g' hg' hid
      have hmem' : g' ∈ rowsWithId
          (update_fvg_table symbol timeFrame tfMin now ohlc db).gaps g.id :=
        mem_rowsWithId hg' hid
      rw [hrowsF] at hmem'
      rw [List.mem_singleton.mp hmem']
    · intro _
      rw [hdb']
      apply agingPass_retests_preserves
      rw [hB]
      exact deactivateRetestsOf_self _ g.id
  · have hB := agingOne_eq_not_filled tfMin now c.close
      (agingPass tfMin now c.close
        { db with gaps := insertNewFvgs db.gaps (fvgScan symbol timeFrame tfMin ohlc)} l₁)
      g hact hfill
    have hrowsF : rowsWithId
        (update_fvg_table symbol timeFrame tfMin now ohlc db).gaps g.id =
        [{ g with duration := roundedDuration tfMin now g }] := by
      rw [hdb', agingPass_rowsWithId_frame tfMin now c.close l₂ g.id hne₂, hB]
      dsimp only
      rw [updateGapRow_rowsWithId_self _ g.id
          (fun x => { x with duration := roundedDuration tfMin now g }) (fun x => rfl),
        hrowsA]
      rfl
    constructor
    · refine iff_of_false ?_ hfill
      intro hall
      have hmem' : ({ g with duration := roundedDuration tfMin now g } : Gap) ∈
          (update_fvg_table symbol timeFrame tfMin now ohlc db).gaps := by
        apply mem_of_rowsWithId (i := g.id)
        rw [hrowsF]
        exact List.mem_singleton_self _
      have := hall _ hmem' rfl
      rw [show ({ g with duration := roundedDuration tfMin now g } : Gap).isActive =
        g.isActive from rfl, hact] at this
      exact Bool.true_eq_false ▸ this
    · intro hfill'
      exact absurd hfill' hfill

theorem gapActivityDerived_of_gaps_eq {db db' : DB} (h : db'.gaps = db.gaps) :
    gapActivityDerived db db' := by
  intro g' hg' ha
  rw [h] at hg'
  exact Or.inl ⟨g', hg', rfl, ha⟩

theorem trigger_trade_gaps_eq (symbol : String) (df1m : List Candle) (db : DB) :
    (trigger_trade symbol df1m db).gaps = db.gaps := by
  unfold trigger_trade
  rcases hgl : df1m.getLast? with _ | c
  · rfl
  · dsimp only
    rcases hr : selectRetest db.retests with _ | rg
    · rfl
    · dsimp only
      by_cases ht : (if rg.direction = Direction.Bullish then decide (c.close > rg.high)
          else decide (c.close < rg.low)) = false
      · rw [if_pos ht]
      · rw [if_neg ht]
        rcases hf : db.gaps.find? fun g => decide (g.id = rg.fairValueGap) with _ | fvgRow
        · rw [hf]
        · rw [hf]

theorem update_trade_status_gaps_eq (symbol : String) (df1m : List Candle) (db : DB) :
    (update_trade_status symbol df1m db).gaps = db.gaps := by
  unfold update_trade_status
  rcases hgl : df1m.getLast? with _ | c
  · rfl
  · dsimp only
    generalize (db.tradeStatus.filterMap fun ts =>
      if ts.isOpen = true then
        (db.trades.find? fun t => decide (t.id = ts.trade)).bind fun t =>
          if t.symbol = symbol then some (ts, t) else none
      else none) = rows
    induction rows generalizing db with
    | nil => rfl
    | cons row rest ih =>
        rw [List.foldl_cons]
        by_cases hq : (positionUpdate c.close (positionOfJoin row.2 row.1)).2
        · rw [if_pos hq]
          rw [ih (writeBack db row.1.id row.2.id
            (positionUpdate c.close (positionOfJoin row.2 row.1)).1)]
          rfl
        · rw [if_neg hq]
          exact ih db

theorem check_gaps_cases (df1m : List Candle) (db : DB) :
    (check_and_insert_retest_gaps df1m db).gaps = db.gaps ∨
    ∃ i, (check_and_insert_retest_gaps df1m db).gaps =
      db.gaps.map fun g => if g.id = i then { g with isRetested := true } else g := by
  unfold check_and_insert_retest_gaps
  rcases hsel : selectCandidateGap db.gaps with _ | fvg
  · exact Or.inl rfl
  · rcases hlc : latestCandle df1m with _ | c
    · exact Or.inl rfl
    · dsimp only
      by_cases hdet : retestCond fvg c = true
      · rw [if_pos hdet]
        dsimp only
        rcases hf : (db.gaps.map fun g =>
            if g.id = fvg.id then { g with isRetested := true } else g).find?
            (fun g => decide (g.id = fvg.id)) with _ | gg
        · rw [hf]
          exact Or.inr ⟨fvg.id, rfl⟩
        · rw [hf]
          dsimp only
          by_cases hga : gg.isActive = false
          · rw [if_pos hga]
            exact Or.inr ⟨fvg.id, rfl⟩
          · rw [if_neg hga]
            exact Or.inr ⟨fvg.id, rfl⟩
      · rw [if_neg hdet]
        rcases hf : db.gaps.find? (fun g => decide (g.id = fvg.id)) with _ | gg
        · rw [hf]
          exact Or.inl rfl
        · rw [hf]
          dsimp only
          by_cases hga : gg.isActive = false
          · rw [if_pos hga]
            exact Or.inl rfl
          · rw [if_neg hga]
            exact Or.inl rfl

theorem check_gaps_derived (df1m : List Candle) (db : DB) :
    gapActivityDerived db (check_and_insert_retest_gaps df1m db) := by
  rcases check_gaps_cases df1m db with h | ⟨i, h⟩
  · exact gapActivityDerived_of_gaps_eq h
  · intro g' hg' ha
    rw [h] at hg'
    rcases List.mem_map.mp hg' with ⟨g₀, h₀, he⟩
    left
    refine ⟨g₀, h₀, ?_, ?_⟩
    · by_cases hid : g₀.id = i
      · rw [← he, if_pos hid]
      · rw [← he, if_neg hid]
    · by_cases hid : g₀.id = i
      · rw [← he, if_pos hid] at ha
        exact ha
      · rw [← he, if_neg hid] at ha
        exact ha

theorem agingOne_derived (tfMin : ℕ) (now : ℤ) (cl : ℚ) (db : DB) (fvg : Gap) :
    ∀ g' ∈ (agingOne tfMin now cl db fvg).gaps,
      ∃ g₀ ∈ db.gaps, g₀.id = g'.id ∧ (g'.isActive = true → g₀.isActive = true) := by
  intro g' hg'
  rcases hb : fvg.isActive with _ | _
  · rw [agingOne_eq_inactive tfMin now cl db fvg hb] at hg'
    exact ⟨g', hg', rfl, fun h => h⟩
  · by_cases hfill : gapFilled fvg cl
    · rw [agingOne_eq_filled tfMin now cl db fvg hb hfill] at hg'
      dsimp only at hg'
      obtain ⟨g₁, h₁, he₁⟩ := updateGapRow_mem _ _ _ g' hg'
      obtain ⟨g₀, h₀, he₀⟩ := updateGapRow_mem _ _ _ g₁ h₁
      refine ⟨g₀, h₀, ?_, ?_⟩
      · rcases he₁ with rfl | rfl <;> rcases he₀ with rfl | rfl <;> rfl
      · rcases he₁ with rfl | rfl <;> rcases he₀ with rfl | rfl <;>
          first
            | exact fun h => h
            | exact fun h => absurd h (by simp)
    · rw [agingOne_eq_not_filled tfMin now cl db fvg hb hfill] at hg'
      dsimp only at hg'
      obtain ⟨g₀, h₀, he₀⟩ := updateGapRow_mem _ _ _ g' hg'
      refine ⟨g₀, h₀, ?_, ?_⟩
      · rcases he₀ with rfl | rfl <;> rfl
      · rcases he₀ with rfl | rfl <;> exact fun h => h

theorem agingPass_derived (tfMin : ℕ) (now : ℤ) (cl : ℚ) (l : List Gap) :
    ∀ db : DB, ∀ g' ∈ (agingPass tfMin now cl db l).gaps,
      ∃ g₀ ∈ db.gaps, g₀.id = g'.id ∧ (g'.isActive = true → g₀.isActive = true) := by
  induction l with
  | nil => intro db g' hg'; exact ⟨g', hg', rfl, fun h => h⟩
  | cons fvg l ih =>
      intro db g' hg'
      rw [agingPass_cons] at hg'
      obtain ⟨g₁, h₁, hid₁, ha₁⟩ := ih (agingOne tfMin now cl db fvg) g' hg'
      obtain ⟨g₀, h₀, hid₀, ha₀⟩ := agingOne_derived tfMin now cl db fvg g₁ h₁
      exact ⟨g₀, h₀, hid₀.trans hid₁, fun h => ha₀ (ha₁ h)⟩

theorem update_fvg_derived (symbol timeFrame : String) (tfMin : ℕ) (now : ℤ)
    (ohlc : List Candle) (db : DB) :
    gapActivityDerived db (update_fvg_table symbol timeFrame tfMin now ohlc db) := by
  intro g' hg' ha
  unfold update_fvg_table at hg'
  rcases hgl : ohlc.getLast? with _ | lastCandle
  · rw [hgl] at hg'
    exact Or.inl ⟨g', hg', rfl, ha⟩
  · rw [hgl] at hg'
    obtain ⟨g₀, h₀, hid₀, ha₀⟩ := agingPass_derived tfMin now lastCandle.close _ _ g' hg'
    obtain ⟨tail, htail, hfresh⟩ :=
      insertNewFvgs_skeleton (fvgScan symbol timeFrame tfMin ohlc) db.gaps
    dsimp only at h₀
    rw [htail] at h₀
    rcases List.mem_append.mp h₀ with h₀ | h₀
    · exact Or.inl ⟨g₀, h₀, hid₀, ha₀ ha⟩
    · right
      intro gx hgx heq
      exact hfresh g₀ h₀ gx hgx (by rw [heq, ← hid₀])

/-- C7: for every pre-existing active gap of the tracked symbol/timeframe
the aging/deactivation pass of `update_fvg_table` ends with the gap's row
deactivated exactly when the latest close crosses the far boundary (Bearish:
close > gapEnd, Bullish: close < gapStart), in which case every RetestGap row
referencing the gap is deactivated as well; and no operation of any of the
four pipeline components ever turns a gap's `IsActive` from 0 back to 1
(every active row after a call descends from an active row with the same id
or is a freshly inserted row with a brand-new id). -/
theorem gap_deactivation_exact_and_permanent :
    (∀ (symbol timeFrame : String) (tfMin : ℕ) (now : ℤ) (ohlc : List Candle)
        (db : DB) (c : Candle), ohlc.getLast? = some c →
        (db.gaps.map Gap.id).Nodup →
        ∀ g ∈ db.gaps, g.symbol = symbol → g.timeFrame = timeFrame →
          g.isActive = true →
          (((∀ g' ∈ (update_fvg_table symbol timeFrame tfMin now ohlc db).gaps,
              g'.id = g.id → g'.isActive = false) ↔ gapFilled g c.close) ∧
            (gapFilled g c.close →
              retestsAllDeact
                (update_fvg_table symbol timeFrame tfMin now ohlc db).retests g.id))) ∧
    (∀ (symbol timeFrame : String) (tfMin : ℕ) (now : ℤ) (ohlc : List Candle) (db : DB),
      gapActivityDerived db (update_fvg_table symbol timeFrame tfMin now ohlc db)) ∧
    (∀ (df1m : List Candle) (db : DB),
      gapActivityDerived db (check_and_insert_retest_gaps df1m db)) ∧
    (∀ (symbol : String) (df1m : List Candle) (db : DB),
      gapActivityDerived db (trigger_trade symbol df1m db)) ∧
    (∀ (symbol : String) (df1m : List Candle) (db : DB),
      gapActivityDerived db (update_trade_status symbol df1m db)) :=
  ⟨fun symbol timeFrame tfMin now ohlc db c hlast hnodup g hg hsym htf hact =>
      update_fvg_row_behaviour symbol timeFrame tfMin now ohlc db c hlast hnodup
        g hg hsym htf hact,
    fun symbol timeFrame tfMin now ohlc db =>
      update_fvg_derived symbol timeFrame tfMin now ohlc db,
    fun df1m db => check_gaps_derived df1m db,
    fun symbol df1m db =>
      gapActivityDerived_of_gaps_eq (trigger_trade_gaps_eq symbol df1m db),
    fun symbol df1m db =>
      gapActivityDerived_of_gaps_eq (update_trade_status_gaps_eq symbol df1m db)⟩

/-- Witness for C7 at the spec scenario: an active Bullish gap 100–106 and a
latest close of 99 (< gapStart). -/
theorem gap_deactivation_exact_and_permanent_witness :
    ((∀ g' ∈ (update_fvg_table "BTCUSD" "5m" 5 25 [fillCandle] dbA).gaps,
        g'.id = gapA.id → g'.isActive = false) ↔ gapFilled gapA fillCandle.close) ∧
    (gapFilled gapA fillCandle.close →
      retestsAllDeact (update_fvg_table "BTCUSD" "5m" 5 25 [fillCandle] dbA).retests
        gapA.id) :=
  gap_deactivation_exact_and_permanent.1 "BTCUSD" "5m" 5 25 [fillCandle] dbA
    fillCandle rfl (by simp [dbA]) gapA (by simp [dbA]) rfl rfl rfl

/-- C10: within a single invocation of `update_trade_status` a position in
`Running` makes at most one transition: the `elif` chain can move it to
`SL` or `PartialBooked` but never directly to `CostToCost` or `FullBooked`,
even when the close satisfies both target conditions. -/
theorem running_never_skips_to_terminal (c : ℚ) (p : Position)
    (h : p.status = Status.Running) :
    (positionStep c p).status ≠ Status.CostToCost ∧
    (positionStep c p).status ≠ Status.FullBooked := by
  unfold positionStep positionUpdate
  split_ifs <;> simp_all

/-- Witness for C10 at the concrete `Running` position and close 130 (which
satisfies both target conditions: 130 ≥ 120 and 130 ≥ 130). -/
theorem running_never_skips_to_terminal_witness :
    runPos.status = Status.Running ∧
    (130 : ℚ) ≥ runPos.intialTarget ∧ (130 : ℚ) ≥ runPos.modifiedTarget ∧
    ((positionStep 130 runPos).status ≠ Status.CostToCost ∧
     (positionStep 130 runPos).status ≠ Status.FullBooked) :=
  ⟨rfl, by norm_num [runPos], by norm_num [runPos],
    running_never_skips_to_terminal 130 runPos rfl⟩

end Bot
